import Mathlib

/-!
# Feedback service: a shallow embedding of `feedback/service.go` and `cmd/handler.go`

Go strings are modelled as Lean strings (sequences of Unicode scalar values),
`time.Time` as a natural-number timestamp and `decimal.Decimal` as a coefficient
with a power-of-ten exponent.
Impure inputs are explicit: the entropy source is a byte stream with a read
cursor, the clock is an argument, and the storage handle is a value that is
passed in and returned.
-/

set_option autoImplicit false

/-! ## Library functions used by the sources -/

namespace unicode

/-- Case tables of Go's `unicode` package for runes above `MaxASCII`.  The
tables are data of the standard library; the embedding takes them as given. -/
structure CaseTables where
  upper : Char → Char
  lower : Char → Char

/-- Rune test `r <= unicode.MaxASCII`. -/
def isASCII (r : Char) : Bool := decide (r.val.toNat ≤ 127)

/-- ASCII branch of `unicode.ToUpper`: `'a' <= r && r <= 'z'` gives `r - ('a' - 'A')`. -/
def asciiUpper (r : Char) : Char :=
  if 97 ≤ r.val.toNat ∧ r.val.toNat ≤ 122 then Char.ofNat (r.val.toNat - 32) else r

/-- ASCII branch of `unicode.ToLower`: `'A' <= r && r <= 'Z'` gives `r + ('a' - 'A')`. -/
def asciiLower (r : Char) : Char :=
  if 65 ≤ r.val.toNat ∧ r.val.toNat ≤ 90 then Char.ofNat (r.val.toNat + 32) else r

/-- Go `unicode.ToUpper`: the ASCII range is handled inline, other runes go
through the case table. -/
def ToUpper (ct : CaseTables) (r : Char) : Char :=
  if isASCII r then asciiUpper r else ct.upper r

/-- Go `unicode.ToLower`. -/
def ToLower (ct : CaseTables) (r : Char) : Char :=
  if isASCII r then asciiLower r else ct.lower r

/-- Go `unicode.IsSpace`: in Latin-1 the characters `\t \n \v \f \r`, space,
U+0085 and U+00A0; above Latin-1 the runes with the White_Space property. -/
def IsSpace (r : Char) : Bool :=
  let n := r.val.toNat
  decide (n = 9 ∨ n = 10 ∨ n = 11 ∨ n = 12 ∨ n = 13 ∨ n = 32 ∨ n = 0x85 ∨ n = 0xA0 ∨
    n = 0x1680 ∨ (0x2000 ≤ n ∧ n ≤ 0x200A) ∨ n = 0x2028 ∨ n = 0x2029 ∨ n = 0x202F ∨
    n = 0x205F ∨ n = 0x3000)

end unicode

namespace strings

/-- Go `strings.ToUpper`: an all-ASCII string is upper-cased bytewise, any
other string is mapped rune by rune through `unicode.ToUpper`. -/
def ToUpper (ct : unicode.CaseTables) (s : String) : String :=
  if s.data.all unicode.isASCII then String.mk (s.data.map unicode.asciiUpper)
  else String.mk (s.data.map (unicode.ToUpper ct))

/-- Go `strings.ToLower`. -/
def ToLower (ct : unicode.CaseTables) (s : String) : String :=
  if s.data.all unicode.isASCII then String.mk (s.data.map unicode.asciiLower)
  else String.mk (s.data.map (unicode.ToLower ct))

/-- Go `strings.TrimSpace`: leading and trailing white space removed. -/
def TrimSpace (s : String) : String :=
  String.mk ((((s.data.dropWhile unicode.IsSpace).reverse).dropWhile unicode.IsSpace).reverse)

end strings

namespace hex

/-- The digit table of `encoding/hex`. -/
def hextable : List Char :=
  ['0', '1', '2', '3', '4', '5', '6', '7', '8', '9', 'a', 'b', 'c', 'd', 'e', 'f']

/-- Go `hex.EncodeToString`: every byte `v` yields `hextable[v>>4]` followed by
`hextable[v&0x0f]`. -/
def EncodeToString (src : List Nat) : String :=
  String.mk (src.foldl (fun dst v => dst ++ [hextable.getD (v >>> 4) '?', hextable.getD (v &&& 0x0f) '?']) [])

end hex

namespace html

/-- Replacement text of one rune under `html.EscapeString`: ampersand (38),
apostrophe (39), less-than (60), greater-than (62) and double quote (34) become
character references. -/
def escapeRune (r : Char) : List Char :=
  if r.val.toNat = 38 then "&amp;".data
  else if r.val.toNat = 39 then "&#39;".data
  else if r.val.toNat = 60 then "&lt;".data
  else if r.val.toNat = 62 then "&gt;".data
  else if r.val.toNat = 34 then "&#34;".data
  else [r]

/-- Go `html.EscapeString`: the five special characters are replaced by
character references. -/
def EscapeString (s : String) : String :=
  String.mk (s.data.flatMap escapeRune)

end html

namespace rand

/-- The entropy source behind `crypto/rand`: an unbounded byte stream and the
number of bytes consumed so far. -/
structure Source where
  stream : Nat → Nat
  pos : Nat

/-- Go `rand.Read(b)` for a buffer of `n` bytes: the next `n` bytes of the
stream, and the advanced source.  The source always fills the buffer. -/
def Read (r : Source) (n : Nat) : List Nat × Source :=
  ((List.range n).map (fun i => r.stream (r.pos + i) % 256), { r with pos := r.pos + n })

end rand

namespace decimal

/-- Go `decimal.Decimal` (shopspring): the number `value * 10 ^ exp`. -/
structure Decimal where
  value : Int
  exp : Int
deriving DecidableEq, Repr

/-- The decimal `n * 10 ^ 0` of a numeral. -/
instance (n : Nat) : OfNat Decimal n := ⟨⟨n, 0⟩⟩

/-- The rational number a decimal stands for. -/
def Decimal.toRat (d : Decimal) : ℚ := (d.value : ℚ) * (10 : ℚ) ^ d.exp

/-- Exact sum of two decimals: both are rescaled to the smaller exponent and
the coefficients are added (shopspring `Decimal.Add`). -/
def Decimal.Add (d d2 : Decimal) : Decimal :=
  let e := min d.exp d2.exp
  ⟨d.value * 10 ^ (d.exp - e).toNat + d2.value * 10 ^ (d2.exp - e).toNat, e⟩

end decimal

/-! ## Errors, column values and statements -/

/-- Go `error` values that occur in the program: the driver's no-rows
sentinel, the service's own sentinel, any other failure, and wrapping. -/
inductive GoError where
  | ErrNoRows
  | ErrQuestionUnknown
  | other (msg : String)
  | wrap (msg : String) (inner : GoError)
deriving DecidableEq, Repr

namespace errors

/-- Go `errors.Is`: the error or one of the errors it wraps equals the target. -/
def Is : GoError → GoError → Bool
  | .wrap msg inner, target => decide (GoError.wrap msg inner = target) || Is inner target
  | e, target => decide (e = target)

end errors

/-- A value held by a column or bound to a placeholder. -/
inductive Value where
  | str (s : String)
  | bool (b : Bool)
  | time (t : Nat)
  | dec (d : decimal.Decimal)
deriving DecidableEq, Repr

namespace sq

/-- A statement assembled with the squirrel builder, kept as the builder's
parts: `Insert(into).Columns(..).Values(..)` with one value list per row and a
trailing suffix, `Update(table).Set(..).Where(Eq)`, and
`Select(columns).From(table).Where(Eq).GroupBy(..).Limit(..)`. -/
inductive Statement where
  | Insert (into : String) (columns : List String) (values : List (List Value)) (suffix : String)
  | Update (table : String) (sets : List (String × Value)) (whereEq : List (String × Value))
  | Select (columns : List String) (table : String) (whereEq : List (String × Value))
      (groupBy : List String) (limit : Option Nat)
deriving DecidableEq, Repr

/-- The builder's `ToSql`: it refuses a statement without a table, an insert
without values, an update without a set clause and a select without columns. -/
def ToSql : Statement → Except GoError Statement
  | .Insert into columns values suffix =>
    if into = "" then .error (.other "insert statements must specify a table")
    else if values = [] then .error (.other "insert statements must have at least one set of values or select clause")
    else .ok (.Insert into columns values suffix)
  | .Update table sets whereEq =>
    if table = "" then .error (.other "update statements must specify a table")
    else if sets = [] then .error (.other "update statements must have at least one Set clause")
    else .ok (.Update table sets whereEq)
  | .Select columns table whereEq groupBy limit =>
    if columns = [] then .error (.other "select statements must have at least one result column")
    else .ok (.Select columns table whereEq groupBy limit)

end sq

namespace sql

/-- The Go type behind a destination pointer handed to `Scan`. -/
inductive Kind where
  | string
  | bool
  | time
  | decimal
deriving DecidableEq, Repr

/-- Assignment of one column value to a destination: a value of the
destination's own type is copied; the program never scans any other pairing,
which is reported as a conversion error. -/
def convertAssign : Kind → Value → Except GoError Value
  | .string, .str s => .ok (.str s)
  | .bool, .bool b => .ok (.bool b)
  | .time, .time t => .ok (.time t)
  | .decimal, .dec d => .ok (.dec d)
  | _, _ => .error (.other "sql: Scan error: unsupported Scan")

/-- Column-by-column assignment; both lists are consumed in step. -/
def assignAll : List Kind → List Value → Except GoError (List Value)
  | [], _ => .ok []
  | _ :: _, [] => .ok []
  | k :: ks, v :: vs =>
    match convertAssign k v with
    | .error e => .error e
    | .ok w =>
      match assignAll ks vs with
      | .error e => .error e
      | .ok ws => .ok (w :: ws)

/-- Go `(*sql.Rows).Scan` on the current row: the number of destinations must
equal the number of columns, then each column is assigned to its destination
by position.  The result lists the values assigned, in destination order. -/
def scanColumns (cols : List Value) (dest : List Kind) : Except GoError (List Value) :=
  if dest.length ≠ cols.length then .error (.other "sql: expected destination arguments in Scan")
  else assignAll dest cols

/-- Go `*sql.Rows` positioned on a row. -/
structure Rows where
  cols : List Value
deriving DecidableEq, Repr

/-- Go `(*sql.Rows).Scan`. -/
def Rows.Scan (r : Rows) (dest : List Kind) : Except GoError (List Value) :=
  scanColumns r.cols dest

/-- Go `*sql.Row`: a deferred error, or the first row of the result set when
there is one. -/
structure Row where
  err : Option GoError
  cols : Option (List Value)
deriving DecidableEq, Repr

/-- Go `(*sql.Row).Scan`: the deferred error if any, `ErrNoRows` for an empty
result set, else the scan of the first row. -/
def Row.Scan (r : Row) (dest : List Kind) : Except GoError (List Value) :=
  match r.err with
  | some e => .error e
  | none =>
    match r.cols with
    | none => .error .ErrNoRows
    | some cols => scanColumns cols dest

end sql

namespace feedback

/-- Go `ErrQuestionUnknown`. -/
def ErrQuestionUnknown : GoError := .ErrQuestionUnknown

/-- Go `Question`. -/
structure Question where
  Enable : Bool
  ID : String
  Title : String
  UpdatedBy : String
  UpdatedAt : Nat
deriving DecidableEq, Repr

/-- Go `Questions`. -/
abbrev Questions := List Question

/-- Go `Feedback`. -/
structure Feedback where
  ID : String
  TeachingID : String
  QuestionID : String
  Rating : decimal.Decimal
deriving DecidableEq, Repr

/-- Go `Assessment`. -/
structure Assessment where
  TeachingID : String
  Rating : decimal.Decimal
deriving DecidableEq, Repr

end feedback

/-! ## The storage handle

The `database` package and the storage engine behind it are not part of the
sources under study.  The handle is modelled from the specification's
description of its operations, over the persisted schema
`questions(id, title, is_display, updated_by, updated_at)` and
`feedback_remarks(id, teaching_id, question_id, rating)`. -/

namespace database

open feedback

/-- Value of a named column of a `questions` row. -/
def questionColumn (q : Question) (c : String) : Option Value :=
  if c = "id" then some (.str q.ID)
  else if c = "title" then some (.str q.Title)
  else if c = "is_display" then some (.bool q.Enable)
  else if c = "updated_by" then some (.str q.UpdatedBy)
  else if c = "updated_at" then some (.time q.UpdatedAt)
  else none

/-- Assignment to a named column of a `questions` row; an unknown column or a
value of the wrong type is refused by the engine. -/
def setQuestionColumn (q : Question) (c : String) : Value → Except GoError Question
  | .str s =>
    if c = "id" then .ok { q with ID := s }
    else if c = "title" then .ok { q with Title := s }
    else if c = "updated_by" then .ok { q with UpdatedBy := s }
    else .error (.other "pq: invalid column or input")
  | .bool b =>
    if c = "is_display" then .ok { q with Enable := b }
    else .error (.other "pq: invalid column or input")
  | .time t =>
    if c = "updated_at" then .ok { q with UpdatedAt := t }
    else .error (.other "pq: invalid column or input")
  | .dec _ => .error (.other "pq: invalid column or input")

/-- Value of a named column of a `feedback_remarks` row. -/
def feedbackColumn (f : Feedback) (c : String) : Option Value :=
  if c = "id" then some (.str f.ID)
  else if c = "teaching_id" then some (.str f.TeachingID)
  else if c = "question_id" then some (.str f.QuestionID)
  else if c = "rating" then some (.dec f.Rating)
  else none

/-- Assignment to a named column of a `feedback_remarks` row. -/
def setFeedbackColumn (f : Feedback) (c : String) : Value → Except GoError Feedback
  | .str s =>
    if c = "id" then .ok { f with ID := s }
    else if c = "teaching_id" then .ok { f with TeachingID := s }
    else if c = "question_id" then .ok { f with QuestionID := s }
    else .error (.other "pq: invalid column or input")
  | .dec d =>
    if c = "rating" then .ok { f with Rating := d }
    else .error (.other "pq: invalid column or input")
  | _ => .error (.other "pq: invalid column or input")

section Engine

variable {ρ : Type}

/-- Conjunction of the equality predicates of a where clause on one row. -/
def matchesEq (col : ρ → String → Option Value) (whereEq : List (String × Value)) (r : ρ) : Bool :=
  whereEq.all (fun p => decide (col r p.1 = some p.2))

/-- The column assignments of a set clause or of an insert row, applied in order. -/
def assignColumns (set : ρ → String → Value → Except GoError ρ) :
    ρ → List (String × Value) → Except GoError ρ
  | r, [] => .ok r
  | r, p :: rest =>
    match set r p.1 p.2 with
    | .error e => .error e
    | .ok r1 => assignColumns set r1 rest

/-- The rows an insert statement adds: every value list must have one value
for each listed column; columns that are not listed keep the zero value. -/
def buildRows (set : ρ → String → Value → Except GoError ρ) (zero : ρ) (columns : List String) :
    List (List Value) → Except GoError (List ρ)
  | [] => .ok []
  | vals :: rest =>
    if vals.length ≠ columns.length then .error (.other "pq: INSERT has more or fewer expressions than target columns")
    else
      match assignColumns set zero (columns.zip vals) with
      | .error e => .error e
      | .ok r =>
        match buildRows set zero columns rest with
        | .error e => .error e
        | .ok rs => .ok (r :: rs)

/-- An update applied to a table: every row satisfying the where clause
receives the set clause; the count of such rows is returned with the table. -/
def updateRows (col : ρ → String → Option Value) (set : ρ → String → Value → Except GoError ρ)
    (sets whereEq : List (String × Value)) : List ρ → Except GoError (List ρ × Nat)
  | [] => .ok ([], 0)
  | r :: rest =>
    match updateRows col set sets whereEq rest with
    | .error e => .error e
    | .ok (rs, n) =>
      if matchesEq col whereEq r then
        match assignColumns set r sets with
        | .error e => .error e
        | .ok r1 => .ok (r1 :: rs, n + 1)
      else .ok (r :: rs, n)

/-- The select list evaluated on one row, in the order the columns are listed. -/
def projectRow (col : ρ → String → Option Value) (r : ρ) : List String → Except GoError (List Value)
  | [] => .ok []
  | c :: cs =>
    match col r c with
    | none => .error (.other "pq: column does not exist")
    | some v =>
      match projectRow col r cs with
      | .error e => .error e
      | .ok vs => .ok (v :: vs)

/-- The select list evaluated on every row, in row order. -/
def projectRows (col : ρ → String → Option Value) (columns : List String) :
    List ρ → Except GoError (List (List Value))
  | [] => .ok []
  | r :: rest =>
    match projectRow col r columns with
    | .error e => .error e
    | .ok vs =>
      match projectRows col columns rest with
      | .error e => .error e
      | .ok vss => .ok (vs :: vss)

/-- A row limit. -/
def applyLimit (limit : Option Nat) (rows : List ρ) : List ρ :=
  match limit with
  | some n => rows.take n
  | none => rows

end Engine

/-- Modelled from the spec: the storage engine's running aggregate of one group
of a grouped select (the engine is not part of the sources): the grouping key,
the running `SUM(rating)`, which is exact, and the running `COUNT(id)`. -/
structure Group where
  key : Value
  sum : decimal.Decimal
  count : Nat
deriving DecidableEq, Repr

/-- Modelled from the spec: the storage engine's grouping step (the engine is
not part of the sources).  One row folded into the running aggregates: it joins
the group of its key, or opens a new group after the existing ones. -/
def accumulate (key : Value) (rating : decimal.Decimal) : List Group → List Group
  | [] => [⟨key, rating, 1⟩]
  | g :: gs =>
    if g.key = key then ⟨g.key, g.sum.Add rating, g.count + 1⟩ :: gs
    else g :: accumulate key rating gs

/-- Modelled from the spec: the storage engine's `GROUP BY` (the engine is not
part of the sources).  All rows of `feedback_remarks` folded into groups by the
column `keyCol`. -/
def groupFeedback (keyCol : String) : List Feedback → List Group → Except GoError (List Group)
  | [], gs => .ok gs
  | f :: rest, gs =>
    match feedbackColumn f keyCol with
    | none => .error (.other "pq: column does not exist")
    | some k => groupFeedback keyCol rest (accumulate k f.Rating gs)

/-- Modelled from the spec: the storage engine's value of a select-list entry
on a group (the engine is not part of the sources): the grouping column itself,
or the aggregate expression `SUM(rating)/COUNT(id)`; any other entry is refused.
The rating is a decimal, so the quotient is a decimal; which decimal the engine
returns for a sum and a count is not fixed by the sources and is the parameter
`quotient`. -/
def groupColumn (quotient : decimal.Decimal → Nat → decimal.Decimal) (keyCol : String) (g : Group)
    (c : String) : Option Value :=
  if c = keyCol then some g.key
  else if c = "SUM(rating)/COUNT(id)" then some (.dec (quotient g.sum g.count))
  else none

/-- Modelled from the spec: the handle `database.DB` (package `database` is
absent from the sources).  It holds the two persisted tables, the list of
statements handed to the engine for execution, the failures the storage engine
reports (connectivity loss, constraint violation: category (c) of the error
taxonomy) as a function of the current tables and the statement, what the
bulk insert answers to an empty batch (`none`: no-op, `some e`: rejection), and
the decimal the storage engine returns for the quotient of a sum of ratings by
a row count. -/
structure DB where
  questions : List Question
  feedback_remarks : List Feedback
  execLog : List sq.Statement
  fault : List Question → List Feedback → sq.Statement → Option GoError
  onEmptyBatch : Option GoError
  quotient : decimal.Decimal → Nat → decimal.Decimal

/-- Modelled from the spec: the storage engine's evaluation of a select
statement (the engine is not part of the sources), on the persisted schema of
spec section 6.  Filtering comes first, then grouping, then the row limit, then
the select list.  Grouping is supported in the shape the program uses: one
grouping column on `feedback_remarks`. -/
def runSelect (db : DB) (columns : List String) (table : String) (whereEq : List (String × Value))
    (groupBy : List String) (limit : Option Nat) : Except GoError (List (List Value)) :=
  if table = "questions" then
    match groupBy with
    | [] => projectRows questionColumn columns
        (applyLimit limit (db.questions.filter (matchesEq questionColumn whereEq)))
    | _ :: _ => .error (.other "pq: unsupported grouping")
  else if table = "feedback_remarks" then
    match groupBy with
    | [] => projectRows feedbackColumn columns
        (applyLimit limit (db.feedback_remarks.filter (matchesEq feedbackColumn whereEq)))
    | [k] =>
      match groupFeedback k (db.feedback_remarks.filter (matchesEq feedbackColumn whereEq)) [] with
      | .error e => .error e
      | .ok gs => projectRows (groupColumn db.quotient k) columns (applyLimit limit gs)
    | _ :: _ :: _ => .error (.other "pq: unsupported grouping")
  else .error (.other "pq: relation does not exist")

/-- Modelled from the spec: `database.DB.Exec`, absent from the sources; the
spec's `execute(ctx, statement, args...)`, a statement with no result set run
as one unit of work.  The statement is recorded; when
the engine reports a failure or refuses the statement the tables are left
as they were. -/
def Exec (db : DB) (query : sq.Statement) : Except GoError Nat × DB :=
  let db1 := { db with execLog := db.execLog ++ [query] }
  match db.fault db.questions db.feedback_remarks query with
  | some e => (.error e, db1)
  | none =>
    match query with
    | .Insert into columns values _ =>
      if into = "questions" then
        match buildRows setQuestionColumn ⟨false, "", "", "", 0⟩ columns values with
        | .error e => (.error e, db1)
        | .ok rows => (.ok rows.length, { db1 with questions := db.questions ++ rows })
      else if into = "feedback_remarks" then
        match buildRows setFeedbackColumn ⟨"", "", "", 0⟩ columns values with
        | .error e => (.error e, db1)
        | .ok rows => (.ok rows.length, { db1 with feedback_remarks := db.feedback_remarks ++ rows })
      else (.error (.other "pq: relation does not exist"), db1)
    | .Update table sets whereEq =>
      if table = "questions" then
        match updateRows questionColumn setQuestionColumn sets whereEq db.questions with
        | .error e => (.error e, db1)
        | .ok (rows, n) => (.ok n, { db1 with questions := rows })
      else if table = "feedback_remarks" then
        match updateRows feedbackColumn setFeedbackColumn sets whereEq db.feedback_remarks with
        | .error e => (.error e, db1)
        | .ok (rows, n) => (.ok n, { db1 with feedback_remarks := rows })
      else (.error (.other "pq: relation does not exist"), db1)
    | .Select columns table whereEq groupBy limit =>
      match runSelect db columns table whereEq groupBy limit with
      | .error e => (.error e, db1)
      | .ok rows => (.ok rows.length, db1)

/-- Modelled from the spec: `database.DB.QueryRow`, absent from the sources;
the spec's `queryRow(ctx, statement, args...)`, a statement expected to return
at most one row.  A failure is deferred to `Scan`; an empty
result set makes `Scan` fail with the no-rows condition. -/
def QueryRow (db : DB) (query : sq.Statement) : sql.Row :=
  match db.fault db.questions db.feedback_remarks query with
  | some e => ⟨some e, none⟩
  | none =>
    match query with
    | .Select columns table whereEq groupBy limit =>
      match runSelect db columns table whereEq groupBy limit with
      | .error e => ⟨some e, none⟩
      | .ok rows => ⟨none, rows.head?⟩
    | _ => ⟨some (.other "pq: statement returns no result set"), none⟩

/-- The consumer invoked once per row in result-set order; iteration stops at
the first error, which is returned with the state reached. -/
def eachRow {α : Type} (f : α → sql.Rows → α × Option GoError) : α → List (List Value) → α × Option GoError
  | acc, [] => (acc, none)
  | acc, cols :: rest =>
    match f acc ⟨cols⟩ with
    | (acc1, some e) => (acc1, some e)
    | (acc1, none) => eachRow f acc1 rest

/-- Modelled from the spec: `database.DB.RunQuery`, absent from the sources;
the spec's `runQuery(ctx, statement, consumer, args...)`, which invokes the
consumer once per row in result-set order and stops at its first error.  The
consumer of the sources is a closure that appends to a captured slice; here it
is a function on the captured state `acc`. -/
def RunQuery {α : Type} (db : DB) (query : sq.Statement) (f : α → sql.Rows → α × Option GoError)
    (acc : α) : α × Option GoError :=
  match db.fault db.questions db.feedback_remarks query with
  | some e => (acc, some e)
  | none =>
    match query with
    | .Select columns table whereEq groupBy limit =>
      match runSelect db columns table whereEq groupBy limit with
      | .error e => (acc, some e)
      | .ok rows => eachRow f acc rows
    | _ => (acc, some (.other "pq: statement returns no result set"))

/-- The flat value sequence cut into `n` rows of `k` values. -/
def rowsOf (k n : Nat) (values : List Value) : List (List Value) :=
  (List.range n).map (fun i => (values.drop (k * i)).take k)

/-- Modelled from the spec: `database.DB.BulkInsert`, absent from the sources;
the spec's `bulkInsert(ctx, table, columns, flatValues, onConflictClause)`.  It
fails if the flat value count is not a multiple of the
column arity, rejects or ignores an empty batch without building a statement,
and otherwise builds and executes one multi-row insert statement. -/
def BulkInsert (db : DB) (table : String) (columns : List String) (values : List Value)
    (conflictAction : String) : Option GoError × DB :=
  if values.length % columns.length ≠ 0 then
    (some (.other "modulus of len(values) and len(columns) must be 0"), db)
  else if values.length / columns.length = 0 then (db.onEmptyBatch, db)
  else
    match Exec db (.Insert table columns (rowsOf columns.length (values.length / columns.length) values) conflictAction) with
    | (.error e, db1) => (some e, db1)
    | (.ok _, db1) => (none, db1)

end database

/-! ## `feedback/service.go` -/

namespace feedback

open database

/-- Go `genID`: four random bytes, hex-encoded, then upper-cased. -/
def genID (ct : unicode.CaseTables) (r : rand.Source) : String × rand.Source :=
  let (byt, r1) := rand.Read r 4
  (strings.ToUpper ct (hex.EncodeToString byt), r1)

/-- Go `Questions.Enable`: a fresh slice to which every element with the
`Enable` flag is appended, in iteration order. -/
def Questions.Enable (qs : Questions) : Questions :=
  qs.foldl (fun q v => if v.Enable then q ++ [v] else q) []

/-- Go `Question.Edit`; `now` is the reading of `time.Now()`. -/
def Question.Edit (q : Question) (title : String) (enable : Bool) (now : Nat) : Question :=
  { q with Title := title, Enable := enable, UpdatedBy := "", UpdatedAt := now }

/-- Go `questionColumns`. -/
def questionColumns : List String :=
  ["id", "title", "is_display", "updated_by", "updated_at"]

/-- Go `feedbackColumns`. -/
def feedbackColumns : List String :=
  ["id", "teaching_id", "question_id", "rating"]

/-- Go `storeQuestion`: the insert built over `questionColumns`, then `db.Exec`. -/
def storeQuestion (db : DB) (q : Question) : Option GoError × DB :=
  match sq.ToSql (.Insert "questions" questionColumns
      [[.str q.ID, .str q.Title, .bool q.Enable, .str q.UpdatedBy, .time q.UpdatedAt]] "") with
  | .error e => (some e, db)
  | .ok query =>
    match Exec db query with
    | (.error e, db1) => (some e, db1)
    | (.ok _, db1) => (none, db1)

/-- Go `updateQuestion`: the update of the four mutable columns of the row
whose `id` equals `q.ID`, then `db.Exec`. -/
def updateQuestion (db : DB) (q : Question) : Option GoError × DB :=
  match sq.ToSql (.Update "questions"
      [("title", .str q.Title), ("is_display", .bool q.Enable), ("updated_by", .str q.UpdatedBy),
        ("updated_at", .time q.UpdatedAt)]
      [("id", .str q.ID)]) with
  | .error e => (some e, db)
  | .ok query =>
    match Exec db query with
    | (.error e, db1) => (some e, db1)
    | (.ok _, db1) => (none, db1)

/-- A string destination after a scan: the value assigned to it, or the zero
value it started with. -/
def stringTarget : Option Value → String
  | some (.str s) => s
  | _ => ""

/-- A bool destination after a scan. -/
def boolTarget : Option Value → Bool
  | some (.bool b) => b
  | _ => false

/-- A time destination after a scan. -/
def timeTarget : Option Value → Nat
  | some (.time t) => t
  | _ => 0

/-- A decimal destination after a scan. -/
def decimalTarget : Option Value → decimal.Decimal
  | some (.dec d) => d
  | _ => 0

/-- Go `scanQuestion`: `scan` receives the addresses of `ID`, `Title`,
`Enable`, `UpdatedBy`, `UpdatedAt` of a zero question, in this order; the
question read after the call is returned with the call's error. -/
def scanQuestion (scan : List sql.Kind → Except GoError (List Value)) : Except GoError Question :=
  match scan [.string, .string, .bool, .string, .time] with
  | .error e => .error e
  | .ok vs => .ok
      { ID := stringTarget vs[0]?, Title := stringTarget vs[1]?, Enable := boolTarget vs[2]?,
        UpdatedBy := stringTarget vs[3]?, UpdatedAt := timeTarget vs[4]? }

/-- Go `findAllQuestion`: the select over `questionColumns`, each row scanned
and appended to the result by the row consumer. -/
def findAllQuestion (db : DB) : Questions × Option GoError :=
  match sq.ToSql (.Select questionColumns "questions" [] [] none) with
  | .error e => ([], some e)
  | .ok query =>
    RunQuery db query
      (fun qs rows =>
        match scanQuestion rows.Scan with
        | .error e => (qs, some e)
        | .ok q => (qs ++ [q], none))
      []

/-- Go `findQuestionByID`: the single-row select by id; a scan error that is
the driver's no-rows condition becomes `ErrQuestionUnknown`. -/
def findQuestionByID (db : DB) (id : String) : Except GoError Question :=
  match sq.ToSql (.Select questionColumns "questions" [("id", .str id)] [] (some 1)) with
  | .error e => .error e
  | .ok query =>
    let row := QueryRow db query
    match scanQuestion row.Scan with
    | .error e => if errors.Is e .ErrNoRows then .error ErrQuestionUnknown else .error e
    | .ok q => .ok q

/-- The loop of `bulkStoreFeedback`: for every element, in order, a generated
id and the element's `TeachingID`, `QuestionID` and `Rating` are appended. -/
def feedbackValues (ct : unicode.CaseTables) (r : rand.Source) (fs : List Feedback) :
    List Value × rand.Source :=
  fs.foldl
    (fun st v =>
      let (id, r1) := genID ct st.2
      (st.1 ++ [.str id, .str v.TeachingID, .str v.QuestionID, .dec v.Rating], r1))
    ([], r)

/-- Go `bulkStoreFeedback`: the values of the loop handed to `db.BulkInsert`
for table `feedback_remarks` and `feedbackColumns`, with no conflict clause. -/
def bulkStoreFeedback (ct : unicode.CaseTables) (db : DB) (r : rand.Source) (fs : List Feedback) :
    Option GoError × DB × rand.Source :=
  let (values, r1) := feedbackValues ct r fs
  let (err, db1) := BulkInsert db "feedback_remarks" feedbackColumns values ""
  (err, db1, r1)

/-- Go `scanAssessment`. -/
def scanAssessment (scan : List sql.Kind → Except GoError (List Value)) : Except GoError Assessment :=
  match scan [.string, .decimal] with
  | .error e => .error e
  | .ok vs => .ok { TeachingID := stringTarget vs[0]?, Rating := decimalTarget vs[1]? }

/-- Go `findAllAssessment`: `teaching_id` and `SUM(rating)/COUNT(id)` selected
from `feedback_remarks` grouped by `teaching_id`, each row scanned and appended. -/
def findAllAssessment (db : DB) : List Assessment × Option GoError :=
  match sq.ToSql (.Select ["teaching_id", "SUM(rating)/COUNT(id)"] "feedback_remarks" []
      ["teaching_id"] none) with
  | .error e => ([], some e)
  | .ok query =>
    RunQuery db query
      (fun acc rows =>
        match scanAssessment rows.Scan with
        | .error e => (acc, some e)
        | .ok a => (acc ++ [a], none))
      []

namespace Service

/-- Go `Service.GetAllQuestion`. -/
def GetAllQuestion (db : DB) : Except GoError Questions :=
  match findAllQuestion db with
  | (_, some e) => .error e
  | (questions, none) => .ok questions

/-- Go `Service.StoreQuestion`: a generated id and the current time are put
into the request, which is stored and returned. -/
def StoreQuestion (ct : unicode.CaseTables) (db : DB) (r : rand.Source) (now : Nat) (q : Question) :
    Except GoError Question × DB × rand.Source :=
  let (id, r1) := genID ct r
  let q1 := { q with ID := id, UpdatedAt := now }
  match storeQuestion db q1 with
  | (some e, db1) => (.error e, db1, r1)
  | (none, db1) => (.ok q1, db1, r1)

/-- Go `Service.UpdateQuestion`: lookup by the request's id, `Edit` with the
request's title and flag, write, return the edited question. -/
def UpdateQuestion (db : DB) (now : Nat) (q : Question) : Except GoError Question × DB :=
  match findQuestionByID db q.ID with
  | .error e => (.error e, db)
  | .ok question =>
    let question1 := question.Edit q.Title q.Enable now
    match updateQuestion db question1 with
    | (some e, db1) => (.error e, db1)
    | (none, db1) => (.ok question1, db1)

/-- Go `Service.BulkStoreFeedBack`. -/
def BulkStoreFeedBack (ct : unicode.CaseTables) (db : DB) (r : rand.Source) (feedbacks : List Feedback) :
    Option GoError × DB × rand.Source :=
  match bulkStoreFeedback ct db r feedbacks with
  | (some e, db1, r1) => (some e, db1, r1)
  | (none, db1, r1) => (none, db1, r1)

/-- Go `Service.GetAllAssessment`. -/
def GetAllAssessment (db : DB) : Except GoError (List Assessment) :=
  match findAllAssessment db with
  | (_, some e) => .error e
  | (as, none) => .ok as

end Service

end feedback

/-! ## `cmd/handler.go` -/

namespace cmd

open feedback database

/-- The response written by `c.JSON(code, body)`. -/
structure JSON (β : Type) where
  code : Nat
  body : β
deriving DecidableEq, Repr

namespace handler

/-- Go `handler.GetAllQuestion`; `q` is the value of the query parameter `q`. -/
def GetAllQuestion (ct : unicode.CaseTables) (db : DB) (q : String) : Except GoError (JSON Questions) :=
  match Service.GetAllQuestion db with
  | .error e => .error e
  | .ok questions =>
    let q1 := html.EscapeString (strings.TrimSpace q)
    if strings.ToLower ct q1 = "enable" then .ok ⟨200, questions.Enable⟩
    else .ok ⟨200, questions⟩

/-- Go `handler.StoreFeedback`; `bound` is what `c.Bind` produced from the
request body: the decoded `assessments` list, or the binding error. -/
def StoreFeedback (ct : unicode.CaseTables) (db : DB) (r : rand.Source)
    (bound : Except GoError (List Feedback)) : Except GoError (JSON Unit) × DB × rand.Source :=
  match bound with
  | .error e => (.error e, db, r)
  | .ok feedbacks =>
    match Service.BulkStoreFeedBack ct db r feedbacks with
    | (some e, db1, r1) => (.error e, db1, r1)
    | (none, db1, r1) => (.ok ⟨201, ()⟩, db1, r1)

end handler

end cmd

/-! ## Vocabulary of the statements -/

namespace feedback

open database

/-- Upper-case hexadecimal digits. -/
def upperHexDigits : List Char :=
  ['0', '1', '2', '3', '4', '5', '6', '7', '8', '9', 'A', 'B', 'C', 'D', 'E', 'F']

/-- The values the loop of `bulkStoreFeedback` appends for a list of elements,
starting from entropy source `r`. -/
def valuesFrom (ct : unicode.CaseTables) : rand.Source → List Feedback → List Value
  | _, [] => []
  | r, f :: fs =>
    .str (genID ct r).1 :: .str f.TeachingID :: .str f.QuestionID :: .dec f.Rating ::
      valuesFrom ct (genID ct r).2 fs

/-- The positional values of a question in the order of `questionColumns`. -/
def questionValues (q : Question) : List Value :=
  [.str q.ID, .str q.Title, .bool q.Enable, .str q.UpdatedBy, .time q.UpdatedAt]

/-- The single-row lookup statement of `findQuestionByID`. -/
def lookupStatement (id : String) : sq.Statement :=
  .Select questionColumns "questions" [("id", .str id)] [] (some 1)

/-- The update statement of `updateQuestion`. -/
def updateStatement (q : Question) : sq.Statement :=
  .Update "questions"
    [("title", .str q.Title), ("is_display", .bool q.Enable), ("updated_by", .str q.UpdatedBy),
      ("updated_at", .time q.UpdatedAt)]
    [("id", .str q.ID)]

/-- The insert statement of `storeQuestion`. -/
def insertStatement (q : Question) : sq.Statement :=
  .Insert "questions" questionColumns
    [[.str q.ID, .str q.Title, .bool q.Enable, .str q.UpdatedBy, .time q.UpdatedAt]] ""

/-- The aggregation statement of `findAllAssessment`. -/
def assessmentStatement : sq.Statement :=
  .Select ["teaching_id", "SUM(rating)/COUNT(id)"] "feedback_remarks" [] ["teaching_id"] none

/-- Sum of the ratings of the rows whose teaching id is `t`, as a rational. -/
def sumRatings (rows : List Feedback) (t : String) : ℚ :=
  ((rows.filter (fun f => decide (f.TeachingID = t))).map (fun f => f.Rating.toRat)).sum

/-- Number of the rows whose teaching id is `t`. -/
def countRows (rows : List Feedback) (t : String) : Nat :=
  (rows.filter (fun f => decide (f.TeachingID = t))).length

/-- Arithmetic mean of the ratings of the rows whose teaching id is `t`. -/
def meanRating (rows : List Feedback) (t : String) : ℚ :=
  sumRatings rows t / (countRows rows t : ℚ)

/-- A group carries the sum and the count of the rows of its teaching id. -/
def GroupOf (rows : List Feedback) (g : Group) : Prop :=
  ∃ t, g.key = .str t ∧ g.sum.toRat = sumRatings rows t ∧ g.count = countRows rows t ∧ 0 < g.count

/-- The running groups describe exactly the rows folded so far. -/
def GroupsOf (rows : List Feedback) (gs : List Group) : Prop :=
  (gs.map (fun g => g.key)).Nodup ∧ (∀ g ∈ gs, GroupOf rows g)
    ∧ ∀ f ∈ rows, Value.str f.TeachingID ∈ gs.map (fun g => g.key)

/-- The assessment a group is scanned into, for the engine's quotient. -/
def assessmentOf (quotient : decimal.Decimal → Nat → decimal.Decimal) (g : Group) : Assessment :=
  { TeachingID := stringTarget (some g.key), Rating := quotient g.sum g.count }

/-- The string is "enable" up to letter case: it has the same length and each
of its characters is the corresponding letter of "enable" or that letter in
upper case. -/
def enableAnyCase (s : String) : Prop :=
  List.Forall₂ (fun c d => c = d ∨ c = unicode.asciiUpper d) s.data "enable".data

/-- The case table sends no rune above `MaxASCII` to a letter of "enable". -/
def lowerAvoidsEnable (ct : unicode.CaseTables) : Prop :=
  ∀ c : Char, unicode.isASCII c = false → ct.lower c ∉ "enable".data


/-! ## Sample values -/

/-- Case tables that lower the Kelvin sign to `k` and the dotted capital I to
`i` and leave every other rune above `MaxASCII` alone. -/
def sampleTables : unicode.CaseTables :=
  ⟨fun c => c, fun c => if c.val.toNat = 0x212A then 'k' else if c.val.toNat = 0x130 then 'i' else c⟩

/-- An entropy source whose first bytes are A1 B2 C3 D4 E5 F6 07 18. -/
def sampleSource : rand.Source := ⟨fun i => 161 + 17 * i, 0⟩

/-- A division of a sum by a count that is exact when the count divides the
coefficient and otherwise keeps sixteen more digits and drops the rest. -/
def sampleQuotient (s : decimal.Decimal) (n : Nat) : decimal.Decimal :=
  if (n : Int) ∣ s.value then ⟨s.value / n, s.exp⟩ else ⟨s.value * 10 ^ 16 / n, s.exp - 16⟩

/-- A store with no rows, no recorded statement, no failure, and a bulk insert
that ignores an empty batch. -/
def emptyDB : DB := ⟨[], [], [], fun _ _ _ => none, none, sampleQuotient⟩

/-- A store with one question and three feedback rows for two teachings. -/
def sampleDB : DB :=
  ⟨[⟨true, "A1B2C3D4", "Quality", "", 7⟩],
   [⟨"F1", "T1", "Q1", 4⟩, ⟨"F2", "T2", "Q1", 5⟩, ⟨"F3", "T1", "Q1", 2⟩],
   [], fun _ _ _ => none, none, sampleQuotient⟩

/-- A store with three feedback rows for "T1", rated 1, 1 and 2. -/
def thirdsDB : DB :=
  ⟨[], [⟨"F1", "T1", "Q1", 1⟩, ⟨"F2", "T1", "Q1", 1⟩, ⟨"F3", "T1", "Q1", 2⟩],
   [], fun _ _ _ => none, none, sampleQuotient⟩

end feedback

/-! ## Theorems -/

open feedback database cmd

/-! ## Identifier format and the enabled filter -/

theorem foldl_append_eq_flatMap {α β : Type} (g : α → List β) (src : List α) (acc : List β) :
    src.foldl (fun dst v => dst ++ g v) acc = acc ++ src.flatMap g := by
  induction src generalizing acc with
  | nil => simp
  | cons v vs ih => rw [List.foldl_cons, ih, List.flatMap_cons, List.append_assoc]

theorem hextable_getD_mem : ∀ i, i < 16 → hex.hextable.getD i '?' ∈ hex.hextable := by
  decide

theorem hex_digit_of_byte (v : Nat) (hv : v < 256) :
    hex.hextable.getD (v >>> 4) '?' ∈ hex.hextable ∧ hex.hextable.getD (v &&& 0x0f) '?' ∈ hex.hextable := by
  constructor
  · apply hextable_getD_mem
    rw [Nat.shiftRight_eq_div_pow]
    omega
  · apply hextable_getD_mem
    exact Nat.lt_of_le_of_lt Nat.and_le_right (by decide)

theorem hextable_ascii : ∀ c ∈ hex.hextable, unicode.isASCII c = true := by decide

theorem hextable_upper : ∀ c ∈ hex.hextable, unicode.asciiUpper c ∈ upperHexDigits := by decide

/-- C2: whatever four bytes the entropy source delivers, the identifier returned
by `genID` has length exactly 8 and each of its characters is an upper-case
hexadecimal digit, one of `0`-`9` or `A`-`F`. -/
theorem genID_format (ct : unicode.CaseTables) (r : rand.Source) :
    (genID ct r).1.length = 8 ∧ ∀ c ∈ (genID ct r).1.data, c ∈ upperHexDigits := by
  have hb : ∀ v ∈ (rand.Read r 4).1, v < 256 := by
    intro v hv
    simp only [rand.Read, List.mem_map] at hv
    obtain ⟨i, _, rfl⟩ := hv
    exact Nat.mod_lt _ (by decide)
  have henc : (hex.EncodeToString (rand.Read r 4).1).data
      = (rand.Read r 4).1.flatMap (fun v => [hex.hextable.getD (v >>> 4) '?', hex.hextable.getD (v &&& 0x0f) '?']) := by
    simp only [hex.EncodeToString]
    rw [foldl_append_eq_flatMap (fun v => [hex.hextable.getD (v >>> 4) '?', hex.hextable.getD (v &&& 0x0f) '?'])]
    simp
  have hdata : ∀ c ∈ (hex.EncodeToString (rand.Read r 4).1).data, c ∈ hex.hextable := by
    intro c hc
    rw [henc, List.mem_flatMap] at hc
    obtain ⟨v, hv, hc⟩ := hc
    have := hex_digit_of_byte v (hb v hv)
    simp only [List.mem_cons, List.mem_singleton, List.not_mem_nil, or_false] at hc
    rcases hc with rfl | rfl
    · exact this.1
    · exact this.2
  have hall : (hex.EncodeToString (rand.Read r 4).1).data.all unicode.isASCII = true := by
    rw [List.all_eq_true]
    intro c hc
    exact hextable_ascii c (hdata c hc)
  have hgen : (genID ct r).1 = String.mk ((hex.EncodeToString (rand.Read r 4).1).data.map unicode.asciiUpper) := by
    simp only [genID, strings.ToUpper, hall, if_true]
  constructor
  · rw [hgen]
    simp only [String.length, List.length_map, henc]
    simp [rand.Read, List.range_succ, List.flatMap]
  · intro c hc
    rw [hgen] at hc
    simp only [List.mem_map] at hc
    obtain ⟨d, hd, rfl⟩ := hc
    exact hextable_upper d (hdata d hd)

theorem Enable_foldl (qs : Questions) (acc : Questions) :
    qs.foldl (fun q v => if v.Enable then q ++ [v] else q) acc = acc ++ qs.filter (fun v => v.Enable) := by
  induction qs generalizing acc with
  | nil => simp
  | cons v vs ih =>
    rw [List.foldl_cons, ih]
    cases hv : v.Enable <;> simp [List.filter_cons, hv]

/-- C7: `Questions.Enable` returns exactly the elements whose `Enable` flag is
true, unchanged and in their original relative order: the result is the
filtered list, it is a sublist of the input, and a question belongs to it if
and only if it belongs to the input and its flag is true. -/
theorem Questions_Enable_spec (qs : Questions) :
    Questions.Enable qs = qs.filter (fun v => v.Enable)
    ∧ List.Sublist (Questions.Enable qs) qs
    ∧ ∀ v : Question, v ∈ Questions.Enable qs ↔ (v ∈ qs ∧ v.Enable = true) := by
  have h : Questions.Enable qs = qs.filter (fun v => v.Enable) := by
    simp [Questions.Enable, Enable_foldl]
  refine ⟨h, ?_, ?_⟩
  · rw [h]; exact List.filter_sublist qs
  · intro v; rw [h]; simp [List.mem_filter]

/-! ## Values of the bulk insert -/

theorem genID_snd (ct : unicode.CaseTables) (r : rand.Source) :
    (genID ct r).2 = ⟨r.stream, r.pos + 4⟩ := rfl

theorem feedbackValues_foldl (ct : unicode.CaseTables) (fs : List Feedback) (r : rand.Source)
    (acc : List Value) :
    fs.foldl
      (fun (st : List Value × rand.Source) v =>
        let (id, r1) := genID ct st.2
        (st.1 ++ [.str id, .str v.TeachingID, .str v.QuestionID, .dec v.Rating], r1))
      (acc, r)
      = (acc ++ valuesFrom ct r fs, ⟨r.stream, r.pos + 4 * fs.length⟩) := by
  induction fs generalizing r acc with
  | nil => simp [valuesFrom]
  | cons f fs ih =>
    rw [List.foldl_cons]
    show List.foldl _ (acc ++ [.str (genID ct r).1, .str f.TeachingID, .str f.QuestionID, .dec f.Rating], (genID ct r).2) fs = _
    rw [ih, genID_snd]
    simp only [valuesFrom, genID_snd, List.length_cons, List.append_assoc, List.cons_append, List.nil_append, Prod.mk.injEq, true_and, rand.Source.mk.injEq]
    omega

theorem feedbackValues_eq (ct : unicode.CaseTables) (r : rand.Source) (fs : List Feedback) :
    feedbackValues ct r fs = (valuesFrom ct r fs, ⟨r.stream, r.pos + 4 * fs.length⟩) := by
  unfold feedbackValues
  rw [feedbackValues_foldl]
  simp

theorem valuesFrom_length (ct : unicode.CaseTables) (fs : List Feedback) (r : rand.Source) :
    (valuesFrom ct r fs).length = 4 * fs.length := by
  induction fs generalizing r with
  | nil => rfl
  | cons f fs ih => simp only [valuesFrom, List.length_cons, ih]; omega

theorem valuesFrom_get (ct : unicode.CaseTables) (fs : List Feedback) (r : rand.Source)
    (i : Nat) (f : Feedback) (h : fs[i]? = some f) :
    (valuesFrom ct r fs)[4 * i]? = some (.str (genID ct ⟨r.stream, r.pos + 4 * i⟩).1)
    ∧ (valuesFrom ct r fs)[4 * i + 1]? = some (.str f.TeachingID)
    ∧ (valuesFrom ct r fs)[4 * i + 2]? = some (.str f.QuestionID)
    ∧ (valuesFrom ct r fs)[4 * i + 3]? = some (.dec f.Rating) := by
  induction fs generalizing r i with
  | nil => simp at h
  | cons g fs ih =>
    cases i with
    | zero =>
      simp only [List.getElem?_cons_zero, Option.some.injEq] at h
      subst h
      simp [valuesFrom]
    | succ i =>
      simp only [List.getElem?_cons_succ] at h
      have := ih (genID ct r).2 i h
      rw [genID_snd] at this
      have key : ∀ n, (valuesFrom ct r (g :: fs))[n + 4]? = (valuesFrom ct ⟨r.stream, r.pos + 4⟩ fs)[n]? := by
        intro n
        simp only [valuesFrom, List.getElem?_cons_succ, genID_snd]
      have e0 : 4 * (i + 1) = 4 * i + 4 := by omega
      have e1 : 4 * (i + 1) + 1 = 4 * i + 1 + 4 := by omega
      have e2 : 4 * (i + 1) + 2 = 4 * i + 2 + 4 := by omega
      have e3 : 4 * (i + 1) + 3 = 4 * i + 3 + 4 := by omega
      have ep : r.pos + 4 * (i + 1) = r.pos + 4 + 4 * i := by omega
      rw [e1, e2, e3, ep, e0, key, key, key, key]
      exact this

theorem valuesFrom_ignores_id (ct : unicode.CaseTables) (g : Feedback → String) (fs : List Feedback)
    (r : rand.Source) :
    valuesFrom ct r (fs.map (fun f => { f with ID := g f })) = valuesFrom ct r fs := by
  induction fs generalizing r with
  | nil => rfl
  | cons f fs ih => simp only [List.map_cons, valuesFrom, ih]

/-- C3: `bulkStoreFeedback` hands to the bulk insert the values collected by
its loop, for `feedbackColumns` = (id, teaching_id, question_id, rating).  For a
list of `n` feedbacks that sequence has length `4 * n`, a multiple of the column
arity; for every `i < n` positions `4i .. 4i+3` hold the id generated from the
entropy source advanced by `4i` bytes, then the `i`-th element's `TeachingID`,
`QuestionID` and `Rating`; and replacing the ids supplied by the caller by any
other ids changes nothing. -/
theorem bulkStoreFeedback_values (ct : unicode.CaseTables) (db : DB) (r : rand.Source)
    (fs : List Feedback) :
    bulkStoreFeedback ct db r fs
        = ((BulkInsert db "feedback_remarks" feedbackColumns (feedbackValues ct r fs).1 "").1,
           (BulkInsert db "feedback_remarks" feedbackColumns (feedbackValues ct r fs).1 "").2,
           (feedbackValues ct r fs).2)
    ∧ feedbackColumns = ["id", "teaching_id", "question_id", "rating"]
    ∧ (feedbackValues ct r fs).1.length = 4 * fs.length
    ∧ (feedbackValues ct r fs).1.length % feedbackColumns.length = 0
    ∧ (∀ (i : Nat) (f : Feedback), fs[i]? = some f →
        (feedbackValues ct r fs).1[4 * i]? = some (.str (genID ct ⟨r.stream, r.pos + 4 * i⟩).1)
        ∧ (feedbackValues ct r fs).1[4 * i + 1]? = some (.str f.TeachingID)
        ∧ (feedbackValues ct r fs).1[4 * i + 2]? = some (.str f.QuestionID)
        ∧ (feedbackValues ct r fs).1[4 * i + 3]? = some (.dec f.Rating))
    ∧ (∀ g : Feedback → String,
        feedbackValues ct r (fs.map (fun f => { f with ID := g f })) = feedbackValues ct r fs) := by
  refine ⟨rfl, rfl, ?_, ?_, ?_, ?_⟩
  · rw [feedbackValues_eq]; exact valuesFrom_length ct fs r
  · rw [feedbackValues_eq]
    show (valuesFrom ct r fs).length % feedbackColumns.length = 0
    rw [valuesFrom_length]
    simp [feedbackColumns]
  · intro i f h
    rw [feedbackValues_eq]
    exact valuesFrom_get ct fs r i f h
  · intro g
    rw [feedbackValues_eq, feedbackValues_eq, valuesFrom_ignores_id]
    simp

/-! ## Lookup, update and column order -/

theorem matchesEq_id (id : String) (s : Question) :
    matchesEq questionColumn [("id", .str id)] s = decide (s.ID = id) := by
  simp [matchesEq, questionColumn]

theorem assignColumns_edit (x q : Question) :
    assignColumns setQuestionColumn x
      [("title", .str q.Title), ("is_display", .bool q.Enable), ("updated_by", .str q.UpdatedBy),
        ("updated_at", .time q.UpdatedAt)]
      = .ok { x with Title := q.Title, Enable := q.Enable, UpdatedBy := q.UpdatedBy, UpdatedAt := q.UpdatedAt } := by
  simp [assignColumns, setQuestionColumn]

theorem updateRows_edit (q : Question) (rows : List Question) :
    updateRows questionColumn setQuestionColumn
      [("title", .str q.Title), ("is_display", .bool q.Enable), ("updated_by", .str q.UpdatedBy),
        ("updated_at", .time q.UpdatedAt)]
      [("id", .str q.ID)] rows
      = .ok (rows.map (fun x => if x.ID = q.ID then q else x),
          (rows.filter (fun x => decide (x.ID = q.ID))).length) := by
  induction rows with
  | nil => rfl
  | cons x rows ih =>
    simp only [updateRows, ih, matchesEq_id, assignColumns_edit]
    by_cases h : x.ID = q.ID
    · simp [h, List.filter_cons]
    · simp [h, List.filter_cons]

theorem updateQuestion_eq (db : DB) (q : Question) :
    updateQuestion db q =
      match db.fault db.questions db.feedback_remarks (updateStatement q) with
      | some e => (some e, { db with execLog := db.execLog ++ [updateStatement q] })
      | none => (none, { db with
          execLog := db.execLog ++ [updateStatement q],
          questions := db.questions.map (fun x => if x.ID = q.ID then q else x) }) := by
  have hsql : sq.ToSql (updateStatement q) = .ok (updateStatement q) := by
    simp [sq.ToSql, updateStatement]
  have hsql2 := hsql
  simp only [updateStatement] at hsql
  simp only [updateQuestion, hsql]
  cases hf : db.fault db.questions db.feedback_remarks (updateStatement q) with
  | some e =>
    simp only [updateStatement] at hf
    simp [Exec, hf, updateStatement]
  | none =>
    simp only [updateStatement] at hf
    simp [Exec, hf, updateStatement, updateRows_edit]

theorem projectRow_question (q : Question) :
    projectRow questionColumn q questionColumns = .ok (questionValues q) := by
  simp [projectRow, questionColumns, questionColumn, questionValues]

theorem projectRows_question (qs : List Question) :
    projectRows questionColumn questionColumns qs = .ok (qs.map questionValues) := by
  induction qs with
  | nil => rfl
  | cons q qs ih => simp [projectRows, projectRow_question, ih]

theorem scanColumns_question (q : Question) :
    sql.scanColumns (questionValues q) [.string, .string, .bool, .string, .time] = .ok (questionValues q) := by
  simp [sql.scanColumns, questionValues, sql.assignAll, sql.convertAssign]

theorem scanQuestion_rows (q : Question) :
    scanQuestion (sql.Rows.Scan ⟨questionValues q⟩) = .ok q := by
  simp [scanQuestion, sql.Rows.Scan, scanColumns_question]
  simp [questionValues, stringTarget, boolTarget, timeTarget]

theorem scanQuestion_row (q : Question) :
    scanQuestion (sql.Row.Scan ⟨none, some (questionValues q)⟩) = .ok q := by
  simp [scanQuestion, sql.Row.Scan, scanColumns_question]
  simp [questionValues, stringTarget, boolTarget, timeTarget]

theorem QueryRow_lookup (db : DB) (id : String)
    (hfault : db.fault db.questions db.feedback_remarks (lookupStatement id) = none) :
    QueryRow db (lookupStatement id)
      = ⟨none, ((db.questions.filter (fun s => decide (s.ID = id))).head?).map questionValues⟩ := by
  have hm : matchesEq questionColumn [("id", Value.str id)] = fun s => decide (s.ID = id) := by
    funext s; exact matchesEq_id id s
  simp only [QueryRow, hfault, lookupStatement] at *
  simp only [hfault, runSelect, if_true, applyLimit, projectRows_question, hm]
  cases h : db.questions.filter (fun s => decide (s.ID = id)) with
  | nil => simp
  | cons a l => simp

theorem findQuestionByID_eq (db : DB) (id : String)
    (hfault : db.fault db.questions db.feedback_remarks (lookupStatement id) = none) :
    findQuestionByID db id =
      match (db.questions.filter (fun s => decide (s.ID = id))).head? with
      | none => .error ErrQuestionUnknown
      | some s => .ok s := by
  have hq := QueryRow_lookup db id hfault
  have hsql : sq.ToSql (.Select questionColumns "questions" [("id", .str id)] [] (some 1))
      = .ok (lookupStatement id) := by
    simp [sq.ToSql, questionColumns, lookupStatement]
  simp only [findQuestionByID, hsql, hq]
  cases h : (db.questions.filter (fun s => decide (s.ID = id))).head? with
  | none => simp [scanQuestion, sql.Row.Scan, errors.Is]
  | some s => simp [scanQuestion_row]


theorem findQuestionByID_fault (db : DB) (id : String) (e : GoError)
    (hfault : db.fault db.questions db.feedback_remarks (lookupStatement id) = some e) :
    ∃ e1, findQuestionByID db id = .error e1 := by
  have hsql : sq.ToSql (.Select questionColumns "questions" [("id", .str id)] [] (some 1))
      = .ok (lookupStatement id) := by
    simp [sq.ToSql, questionColumns, lookupStatement]
  simp only [findQuestionByID, hsql, QueryRow, hfault, scanQuestion, sql.Row.Scan]
  by_cases h : errors.Is e .ErrNoRows = true
  · exact ⟨ErrQuestionUnknown, by simp [h]⟩
  · exact ⟨e, by simp [h]⟩

theorem findQuestionByID_ok (db : DB) (id : String) (s : Question)
    (h : findQuestionByID db id = .ok s) : s ∈ db.questions ∧ s.ID = id := by
  cases hf : db.fault db.questions db.feedback_remarks (lookupStatement id) with
  | some e =>
    obtain ⟨e1, he1⟩ := findQuestionByID_fault db id e hf
    rw [he1] at h
    cases h
  | none =>
    rw [findQuestionByID_eq db id hf] at h
    cases hh : (db.questions.filter (fun s => decide (s.ID = id))).head? with
    | none => rw [hh] at h; cases h
    | some x =>
      rw [hh] at h
      simp only [Except.ok.injEq] at h
      subst h
      have hmem := List.mem_of_mem_head? hh
      rw [List.mem_filter] at hmem
      exact ⟨hmem.1, by simpa using hmem.2⟩

/-- C9: when the lookup finds the stored question `s` and the write succeeds,
`UpdateQuestion` returns `s` with the request's title and flag, an empty
`UpdatedBy`, `UpdatedAt` set to the current time and the id of `s` (which is the
requested id; `Edit` keeps it).  The update statement carries exactly these
values, and in the table every row with that id now is the returned value,
other rows and the feedback table being untouched.  The request's own
`UpdatedBy` and `UpdatedAt` do not occur in the result. -/
theorem UpdateQuestion_found (db : DB) (now : Nat) (q s : Question)
    (hlookup : findQuestionByID db q.ID = .ok s)
    (hwrite : (updateQuestion db (s.Edit q.Title q.Enable now)).1 = none) :
    (Service.UpdateQuestion db now q).1
        = .ok { Enable := q.Enable, ID := s.ID, Title := q.Title, UpdatedBy := "", UpdatedAt := now }
    ∧ s.Edit q.Title q.Enable now
        = { Enable := q.Enable, ID := s.ID, Title := q.Title, UpdatedBy := "", UpdatedAt := now }
    ∧ s.ID = q.ID
    ∧ (Service.UpdateQuestion db now q).2.execLog = db.execLog ++
        [.Update "questions"
          [("title", .str q.Title), ("is_display", .bool q.Enable), ("updated_by", .str ""),
            ("updated_at", .time now)]
          [("id", .str s.ID)]]
    ∧ (Service.UpdateQuestion db now q).2.questions = db.questions.map (fun x =>
        if x.ID = s.ID then
          { Enable := q.Enable, ID := s.ID, Title := q.Title, UpdatedBy := "", UpdatedAt := now }
        else x)
    ∧ ({ Enable := q.Enable, ID := s.ID, Title := q.Title, UpdatedBy := "", UpdatedAt := now } : Question)
        ∈ (Service.UpdateQuestion db now q).2.questions
    ∧ (Service.UpdateQuestion db now q).2.feedback_remarks = db.feedback_remarks := by
  obtain ⟨hmem, hsid⟩ := findQuestionByID_ok db q.ID s hlookup
  have hedit : s.Edit q.Title q.Enable now
      = { Enable := q.Enable, ID := s.ID, Title := q.Title, UpdatedBy := "", UpdatedAt := now } := rfl
  rw [hedit] at hwrite
  rw [updateQuestion_eq] at hwrite
  have hupd := updateQuestion_eq db
    { Enable := q.Enable, ID := s.ID, Title := q.Title, UpdatedBy := "", UpdatedAt := now }
  cases hf : db.fault db.questions db.feedback_remarks
      (updateStatement { Enable := q.Enable, ID := s.ID, Title := q.Title, UpdatedBy := "", UpdatedAt := now }) with
  | some e => rw [hf] at hwrite; cases hwrite
  | none =>
    rw [hf] at hupd
    simp only at hupd
    have hres : Service.UpdateQuestion db now q = (.ok { Enable := q.Enable, ID := s.ID, Title := q.Title, UpdatedBy := "", UpdatedAt := now },
        { db with
          execLog := db.execLog ++ [updateStatement { Enable := q.Enable, ID := s.ID, Title := q.Title, UpdatedBy := "", UpdatedAt := now }],
          questions := db.questions.map (fun x => if x.ID = s.ID then
            { Enable := q.Enable, ID := s.ID, Title := q.Title, UpdatedBy := "", UpdatedAt := now } else x) }) := by
      simp only [Service.UpdateQuestion, hlookup, hedit, hupd]
    rw [hres]
    refine ⟨rfl, rfl, hsid, rfl, rfl, ?_, rfl⟩
    simp only [List.mem_map]
    exact ⟨s, hmem, by simp⟩

theorem storeQuestion_eq (db : DB) (q : Question) :
    storeQuestion db q =
      match db.fault db.questions db.feedback_remarks (insertStatement q) with
      | some e => (some e, { db with execLog := db.execLog ++ [insertStatement q] })
      | none => (none, { db with
          execLog := db.execLog ++ [insertStatement q],
          questions := db.questions ++ [q] }) := by
  have hsql : sq.ToSql (insertStatement q) = .ok (insertStatement q) := by
    simp [sq.ToSql, insertStatement]
  simp only [insertStatement, questionColumns] at hsql
  simp only [storeQuestion, questionColumns, hsql]
  cases hf : db.fault db.questions db.feedback_remarks (insertStatement q) with
  | some e =>
    simp only [insertStatement, questionColumns] at hf
    simp [Exec, hf, insertStatement, questionColumns]
  | none =>
    simp only [insertStatement, questionColumns] at hf
    simp [Exec, hf, insertStatement, buildRows, assignColumns, setQuestionColumn, questionColumns]

/-- C10: `storeQuestion` supplies for `questionColumns` = (id, title,
is_display, updated_by, updated_at) the values (`ID`, `Title`, `Enable`,
`UpdatedBy`, `UpdatedAt`) of the question, in this order; `scanQuestion` bound by
position to a row holding exactly these values, through `Rows.Scan` or through
`Row.Scan`, returns the question itself without error; the engine's select over
`questionColumns` yields the same values for a stored question; and when the
engine executes the insert and answers the lookup, and no row had the id before,
`findQuestionByID` after `storeQuestion` returns the question stored. -/
theorem storeQuestion_scanQuestion_order (db : DB) (q : Question) :
    questionColumns = ["id", "title", "is_display", "updated_by", "updated_at"]
    ∧ (storeQuestion db q).2.execLog = db.execLog ++
        [.Insert "questions" questionColumns
          [[.str q.ID, .str q.Title, .bool q.Enable, .str q.UpdatedBy, .time q.UpdatedAt]] ""]
    ∧ scanQuestion (sql.Rows.Scan ⟨[.str q.ID, .str q.Title, .bool q.Enable, .str q.UpdatedBy, .time q.UpdatedAt]⟩)
        = .ok q
    ∧ scanQuestion (sql.Row.Scan ⟨none, some [.str q.ID, .str q.Title, .bool q.Enable, .str q.UpdatedBy, .time q.UpdatedAt]⟩)
        = .ok q
    ∧ projectRow questionColumn q questionColumns
        = .ok [.str q.ID, .str q.Title, .bool q.Enable, .str q.UpdatedBy, .time q.UpdatedAt]
    ∧ (db.fault db.questions db.feedback_remarks (insertStatement q) = none →
        db.fault (db.questions ++ [q]) db.feedback_remarks (lookupStatement q.ID) = none →
        (∀ s ∈ db.questions, s.ID ≠ q.ID) →
        (storeQuestion db q).1 = none
        ∧ (storeQuestion db q).2.questions = db.questions ++ [q]
        ∧ findQuestionByID (storeQuestion db q).2 q.ID = .ok q) := by
  refine ⟨rfl, ?_, scanQuestion_rows q, scanQuestion_row q, projectRow_question q, ?_⟩
  · rw [storeQuestion_eq]
    cases db.fault db.questions db.feedback_remarks (insertStatement q) <;> rfl
  · intro hins hlook hid
    rw [storeQuestion_eq, hins]
    refine ⟨rfl, rfl, ?_⟩
    rw [findQuestionByID_eq _ _ hlook]
    have hnil : db.questions.filter (fun s => decide (s.ID = q.ID)) = [] := by
      rw [List.filter_eq_nil_iff]
      intro s hs
      simpa using hid s hs
    simp [List.filter_append, hnil]

/-- Witness for C10: the question "B7" stored into the sample store is read
back unchanged. -/
theorem storeQuestion_scanQuestion_order_witness :
    (storeQuestion sampleDB ⟨false, "B7", "Pace", "dean", 11⟩).2.questions
        = [⟨true, "A1B2C3D4", "Quality", "", 7⟩, ⟨false, "B7", "Pace", "dean", 11⟩]
    ∧ findQuestionByID (storeQuestion sampleDB ⟨false, "B7", "Pace", "dean", 11⟩).2 "B7"
        = .ok ⟨false, "B7", "Pace", "dean", 11⟩ :=
  ⟨((storeQuestion_scanQuestion_order sampleDB ⟨false, "B7", "Pace", "dean", 11⟩).2.2.2.2.2
      rfl rfl (by decide)).2.1,
   ((storeQuestion_scanQuestion_order sampleDB ⟨false, "B7", "Pace", "dean", 11⟩).2.2.2.2.2
      rfl rfl (by decide)).2.2⟩

/-- C1: when no stored question has the id of the request and the storage
engine answers the lookup, the scan of the single-row lookup fails with the
driver's no-rows error, `findQuestionByID` turns it into `ErrQuestionUnknown`,
and `UpdateQuestion` returns that sentinel (which is not the raw no-rows error)
together with the unchanged handle: no question, no statement executed, the
tables as they were. -/
theorem UpdateQuestion_unknown_id (db : DB) (now : Nat) (q : Question)
    (hid : ∀ s ∈ db.questions, s.ID ≠ q.ID)
    (hfault : db.fault db.questions db.feedback_remarks (lookupStatement q.ID) = none) :
    (QueryRow db (lookupStatement q.ID)).Scan [.string, .string, .bool, .string, .time] = .error .ErrNoRows
    ∧ findQuestionByID db q.ID = .error ErrQuestionUnknown
    ∧ Service.UpdateQuestion db now q = (.error ErrQuestionUnknown, db)
    ∧ ErrQuestionUnknown ≠ GoError.ErrNoRows := by
  have hnil : db.questions.filter (fun s => decide (s.ID = q.ID)) = [] := by
    rw [List.filter_eq_nil_iff]
    intro s hs
    simpa using hid s hs
  have hfind : findQuestionByID db q.ID = .error ErrQuestionUnknown := by
    rw [findQuestionByID_eq db q.ID hfault, hnil]
    rfl
  refine ⟨?_, hfind, ?_, by decide⟩
  · rw [QueryRow_lookup db q.ID hfault, hnil]
    rfl
  · simp only [Service.UpdateQuestion, hfind]

/-- Witness for C1: the sample store holds one question, with id "A1B2C3D4";
an update for id "FFFFFFFF" yields the sentinel and the same store. -/
theorem UpdateQuestion_unknown_id_witness :
    (∀ s ∈ sampleDB.questions, s.ID ≠ "FFFFFFFF")
    ∧ Service.UpdateQuestion sampleDB 9 ⟨false, "FFFFFFFF", "New", "x", 0⟩
        = (.error ErrQuestionUnknown, sampleDB) :=
  ⟨by decide,
   (UpdateQuestion_unknown_id sampleDB 9 ⟨false, "FFFFFFFF", "New", "x", 0⟩ (by decide) rfl).2.2.1⟩

/-- Witness for C9: on the sample store the question "A1B2C3D4" is found and
the update at time 9 returns it with the new title and flag. -/
theorem UpdateQuestion_found_witness :
    findQuestionByID sampleDB "A1B2C3D4" = .ok ⟨true, "A1B2C3D4", "Quality", "", 7⟩
    ∧ (Service.UpdateQuestion sampleDB 9 ⟨false, "A1B2C3D4", "Teaching", "someone", 3⟩).1
        = .ok ⟨false, "A1B2C3D4", "Teaching", "", 9⟩
    ∧ (Service.UpdateQuestion sampleDB 9 ⟨false, "A1B2C3D4", "Teaching", "someone", 3⟩).2.questions
        = [⟨false, "A1B2C3D4", "Teaching", "", 9⟩] :=
  ⟨rfl,
   (UpdateQuestion_found sampleDB 9 ⟨false, "A1B2C3D4", "Teaching", "someone", 3⟩
      ⟨true, "A1B2C3D4", "Quality", "", 7⟩ rfl rfl).1,
   ((UpdateQuestion_found sampleDB 9 ⟨false, "A1B2C3D4", "Teaching", "someone", 3⟩
      ⟨true, "A1B2C3D4", "Quality", "", 7⟩ rfl rfl).2.2.2.2.1).trans (by decide)⟩

/-! ## Aggregation of ratings -/

theorem Decimal_toRat_Add (a b : decimal.Decimal) : (a.Add b).toRat = a.toRat + b.toRat := by
  have h10 : (10 : ℚ) ≠ 0 := by norm_num
  have key : ∀ (v x e : Int), e ≤ x →
      ((v * 10 ^ (x - e).toNat : Int) : ℚ) * (10 : ℚ) ^ e = (v : ℚ) * (10 : ℚ) ^ x := by
    intro v x e hle
    have hx : ((x - e).toNat : Int) = x - e := Int.toNat_of_nonneg (by omega)
    push_cast
    rw [mul_assoc, ← zpow_natCast, ← zpow_add₀ h10, hx]
    congr 2
    omega
  unfold decimal.Decimal.Add decimal.Decimal.toRat
  simp only
  push_cast
  rw [add_mul]
  have h1 := key a.value a.exp (min a.exp b.exp) (min_le_left _ _)
  have h2 := key b.value b.exp (min a.exp b.exp) (min_le_right _ _)
  push_cast at h1 h2
  rw [h1, h2]

theorem pow_ten_emod_three (k : Nat) : ((10 : Int) ^ k) % 3 = 1 := by
  induction k with
  | zero => rfl
  | succ n ih => rw [pow_succ, Int.mul_emod, ih]; rfl

/-- No decimal stands for four thirds. -/
theorem Decimal_ne_four_thirds (d : decimal.Decimal) : d.toRat ≠ 4 / 3 := by
  intro h
  unfold decimal.Decimal.toRat at h
  have h10 : (10 : ℚ) ≠ 0 := by norm_num
  rcases Int.le_total 0 d.exp with hpos | hneg
  · obtain ⟨k, hk⟩ := Int.eq_ofNat_of_zero_le hpos
    rw [hk, zpow_natCast] at h
    have h3 : ((3 * (d.value * 10 ^ k) : Int) : ℚ) = ((4 : Int) : ℚ) := by
      push_cast
      rw [h]; norm_num
    have h4 : 3 * (d.value * 10 ^ k) = 4 := by exact_mod_cast h3
    omega
  · obtain ⟨k, hk⟩ := Int.eq_ofNat_of_zero_le (Int.neg_nonneg_of_nonpos hneg)
    have he : d.exp = -(k : Int) := by omega
    rw [he, zpow_neg, zpow_natCast] at h
    have hk0 : ((10 : ℚ) ^ k) ≠ 0 := pow_ne_zero _ h10
    have h3 : ((3 * d.value : Int) : ℚ) = ((4 * 10 ^ k : Int) : ℚ) := by
      push_cast
      field_simp at h
      linarith
    have h4 : 3 * d.value = 4 * 10 ^ k := by exact_mod_cast h3
    have hmod : (4 * (10 : Int) ^ k) % 3 = 1 := by
      have : ((10 : Int) ^ k) % 3 = 1 := pow_ten_emod_three k
      rw [Int.mul_emod, this]; rfl
    omega

theorem sumRatings_append (rows : List Feedback) (f : Feedback) (t : String) :
    sumRatings (rows ++ [f]) t = sumRatings rows t + (if f.TeachingID = t then f.Rating.toRat else 0) := by
  unfold sumRatings
  by_cases h : f.TeachingID = t <;> simp [List.filter_append, List.filter_cons, h]

theorem countRows_append (rows : List Feedback) (f : Feedback) (t : String) :
    countRows (rows ++ [f]) t = countRows rows t + (if f.TeachingID = t then 1 else 0) := by
  unfold countRows
  by_cases h : f.TeachingID = t <;> simp [List.filter_append, List.filter_cons, h]

theorem sumRatings_of_count_zero (rows : List Feedback) (t : String) (h : countRows rows t = 0) :
    sumRatings rows t = 0 := by
  unfold countRows at h
  unfold sumRatings
  rw [List.length_eq_zero] at h
  rw [h]; rfl

theorem accumulate_keys (k : Value) (r : decimal.Decimal) (gs : List Group) :
    (accumulate k r gs).map (fun g => g.key)
      = if k ∈ gs.map (fun g => g.key) then gs.map (fun g => g.key)
        else gs.map (fun g => g.key) ++ [k] := by
  induction gs with
  | nil => simp [accumulate]
  | cons g gs ih =>
    by_cases h : g.key = k
    · simp [accumulate, h]
    · have h2 : ¬ k = g.key := fun e => h e.symm
      simp only [accumulate, h, if_false, List.map_cons, ih, List.mem_cons, h2, false_or]
      split <;> simp

theorem accumulate_groupOf (rows : List Feedback) (f : Feedback) (gs : List Group)
    (hnd : (gs.map (fun g => g.key)).Nodup)
    (hgood : ∀ g ∈ gs, GroupOf rows g)
    (hnew : Value.str f.TeachingID ∉ gs.map (fun g => g.key) → countRows rows f.TeachingID = 0) :
    ∀ g ∈ accumulate (.str f.TeachingID) f.Rating gs, GroupOf (rows ++ [f]) g := by
  induction gs with
  | nil =>
    intro g hg
    simp only [accumulate, List.mem_singleton] at hg
    subst hg
    have hc := hnew (by simp)
    refine ⟨f.TeachingID, rfl, ?_, ?_, Nat.one_pos⟩
    · simp [sumRatings_append, sumRatings_of_count_zero rows _ hc]
    · simp [countRows_append, hc]
  | cons g0 gs ih =>
    intro g hg
    have hnd' : (gs.map (fun g => g.key)).Nodup := (List.nodup_cons.mp hnd).2
    have hnot : g0.key ∉ gs.map (fun g => g.key) := (List.nodup_cons.mp hnd).1
    by_cases h : g0.key = .str f.TeachingID
    · simp only [accumulate, h, if_true, List.mem_cons] at hg
      rcases hg with rfl | hg
      · obtain ⟨t, ht, hs, hc, hpos⟩ := hgood g0 (List.mem_cons_self _ _)
        rw [h] at ht
        simp only [Value.str.injEq] at ht
        subst ht
        refine ⟨f.TeachingID, rfl, ?_, ?_, Nat.succ_pos _⟩
        · simp [Decimal_toRat_Add, sumRatings_append, hs]
        · simp [countRows_append, hc]
      · obtain ⟨t, ht, hs, hc, hpos⟩ := hgood g (List.mem_cons_of_mem _ hg)
        have hne : f.TeachingID ≠ t := by
          intro e
          apply hnot
          rw [h, e, ← ht]
          exact List.mem_map_of_mem (fun g => g.key) hg
        refine ⟨t, ht, ?_, ?_, hpos⟩
        · simp [sumRatings_append, hs, hne]
        · simp [countRows_append, hc, hne]
    · simp only [accumulate, h, if_false, List.mem_cons] at hg
      rcases hg with rfl | hg
      · obtain ⟨t, ht, hs, hc, hpos⟩ := hgood g (List.mem_cons_self _ _)
        have hne : f.TeachingID ≠ t := by
          intro e
          apply h
          rw [ht, e]
        refine ⟨t, ht, ?_, ?_, hpos⟩
        · simp [sumRatings_append, hs, hne]
        · simp [countRows_append, hc, hne]
      · apply ih hnd' (fun g hg => hgood g (List.mem_cons_of_mem _ hg)) _ g hg
        intro hk
        apply hnew
        simp only [List.map_cons, List.mem_cons, not_or]
        exact ⟨fun e => h e.symm, hk⟩

theorem countRows_eq_zero_of_not_mem (rows : List Feedback) (t : String)
    (h : ∀ f ∈ rows, f.TeachingID ≠ t) : countRows rows t = 0 := by
  unfold countRows
  rw [List.length_eq_zero, List.filter_eq_nil_iff]
  intro f hf
  simpa using h f hf

theorem accumulate_groupsOf (rows : List Feedback) (f : Feedback) (gs : List Group)
    (h : GroupsOf rows gs) :
    GroupsOf (rows ++ [f]) (accumulate (.str f.TeachingID) f.Rating gs) := by
  obtain ⟨hnd, hgood, hcov⟩ := h
  refine ⟨?_, ?_, ?_⟩
  · rw [accumulate_keys]
    split
    · exact hnd
    · rename_i hk
      rw [List.nodup_append]
      refine ⟨hnd, List.nodup_singleton _, ?_⟩
      intro a ha hb
      simp only [List.mem_singleton] at hb
      subst hb
      exact hk ha
  · apply accumulate_groupOf rows f gs hnd hgood
    intro hk
    apply countRows_eq_zero_of_not_mem
    intro f1 hf1 e
    apply hk
    rw [← e]
    exact hcov f1 hf1
  · intro f1 hf1
    rw [accumulate_keys]
    rw [List.mem_append, List.mem_singleton] at hf1
    split
    · rename_i hk
      rcases hf1 with hf1 | rfl
      · exact hcov f1 hf1
      · exact hk
    · rcases hf1 with hf1 | rfl
      · exact List.mem_append_left _ (hcov f1 hf1)
      · simp

theorem groupFeedback_groupsOf (rest : List Feedback) (rows : List Feedback) (gs : List Group)
    (h : GroupsOf rows gs) :
    ∃ gs1, groupFeedback "teaching_id" rest gs = .ok gs1 ∧ GroupsOf (rows ++ rest) gs1 := by
  induction rest generalizing rows gs with
  | nil => exact ⟨gs, rfl, by simpa using h⟩
  | cons f rest ih =>
    have hcol : feedbackColumn f "teaching_id" = some (.str f.TeachingID) := by
      simp [feedbackColumn]
    obtain ⟨gs1, h1, h2⟩ := ih (rows ++ [f]) _ (accumulate_groupsOf rows f gs h)
    refine ⟨gs1, ?_, by simpa using h2⟩
    simp only [groupFeedback, hcol]
    exact h1

theorem projectRows_groups (quotient : decimal.Decimal → Nat → decimal.Decimal) (gs : List Group) :
    projectRows (groupColumn quotient "teaching_id") ["teaching_id", "SUM(rating)/COUNT(id)"] gs
      = .ok (gs.map (fun g => [g.key, .dec (quotient g.sum g.count)])) := by
  induction gs with
  | nil => rfl
  | cons g gs ih => simp [projectRows, projectRow, groupColumn, ih]

theorem eachRow_assessments (quotient : decimal.Decimal → Nat → decimal.Decimal) (gs : List Group)
    (acc : List Assessment) (hkeys : ∀ g ∈ gs, ∃ t, g.key = .str t) :
    eachRow
      (fun (acc : List Assessment) (rows : sql.Rows) =>
        match scanAssessment rows.Scan with
        | .error e => (acc, some e)
        | .ok a => (acc ++ [a], none))
      acc (gs.map (fun g => [g.key, .dec (quotient g.sum g.count)]))
      = (acc ++ gs.map (assessmentOf quotient), none) := by
  induction gs generalizing acc with
  | nil => simp [eachRow]
  | cons g gs ih =>
    obtain ⟨t, ht⟩ := hkeys g (List.mem_cons_self _ _)
    have hscan : scanAssessment (sql.Rows.Scan ⟨[g.key, .dec (quotient g.sum g.count)]⟩)
        = .ok (assessmentOf quotient g) := by
      simp [scanAssessment, sql.Rows.Scan, sql.scanColumns, sql.assignAll, sql.convertAssign, ht,
        assessmentOf, stringTarget, decimalTarget]
    simp only [List.map_cons, eachRow, hscan]
    rw [ih _ (fun g hg => hkeys g (List.mem_cons_of_mem _ hg))]
    simp

theorem findAllAssessment_eq (db : DB)
    (hfault : db.fault db.questions db.feedback_remarks assessmentStatement = none) :
    ∃ gs, GroupsOf db.feedback_remarks gs
      ∧ findAllAssessment db = (gs.map (assessmentOf db.quotient), none) := by
  obtain ⟨gs, hgs, hinv⟩ := groupFeedback_groupsOf db.feedback_remarks [] []
    ⟨by simp, by simp, by simp⟩
  simp only [List.nil_append] at hinv
  refine ⟨gs, hinv, ?_⟩
  have hsql : sq.ToSql assessmentStatement = .ok assessmentStatement := by
    simp [sq.ToSql, assessmentStatement]
  have hall : db.feedback_remarks.filter (matchesEq feedbackColumn []) = db.feedback_remarks := by
    simp [matchesEq]
  simp only [assessmentStatement] at hsql hfault
  simp only [findAllAssessment, hsql, RunQuery, hfault, runSelect]
  simp only [hall, hgs, applyLimit, projectRows_groups]
  simp
  have := eachRow_assessments db.quotient gs [] (fun g hg => by
    obtain ⟨t, ht, _⟩ := hinv.2.1 g hg
    exact ⟨t, ht⟩)
  simpa using this

theorem GetAllAssessment_general (db : DB)
    (hfault : db.fault db.questions db.feedback_remarks assessmentStatement = none) :
    ∃ as, Service.GetAllAssessment db = .ok as
      ∧ (as.map (fun a => a.TeachingID)).Nodup
      ∧ (∀ t, t ∈ as.map (fun a => a.TeachingID) ↔ ∃ f ∈ db.feedback_remarks, f.TeachingID = t)
      ∧ ∀ a ∈ as, ∃ s : decimal.Decimal,
          s.toRat = sumRatings db.feedback_remarks a.TeachingID
          ∧ 0 < countRows db.feedback_remarks a.TeachingID
          ∧ a.Rating = db.quotient s (countRows db.feedback_remarks a.TeachingID)
          ∧ (a.Rating.toRat = meanRating db.feedback_remarks a.TeachingID ↔
              (db.quotient s (countRows db.feedback_remarks a.TeachingID)).toRat
                = s.toRat / (countRows db.feedback_remarks a.TeachingID : ℚ)) := by
  obtain ⟨gs, ⟨hnd, hgood, hcov⟩, hfind⟩ := findAllAssessment_eq db hfault
  refine ⟨gs.map (assessmentOf db.quotient), ?_, ?_, ?_, ?_⟩
  · simp only [Service.GetAllAssessment, hfind]
  · have hmap : (gs.map (assessmentOf db.quotient)).map (fun a => a.TeachingID)
        = (gs.map (fun g => g.key)).map (fun k => stringTarget (some k)) := by
      simp [List.map_map, assessmentOf, Function.comp_def]
    rw [hmap]
    apply List.Nodup.map_on _ hnd
    intro k1 hk1 k2 hk2 e
    rw [List.mem_map] at hk1 hk2
    obtain ⟨g1, hg1, rfl⟩ := hk1
    obtain ⟨g2, hg2, rfl⟩ := hk2
    obtain ⟨t1, ht1, _⟩ := hgood g1 hg1
    obtain ⟨t2, ht2, _⟩ := hgood g2 hg2
    rw [ht1, ht2] at e ⊢
    simp only [stringTarget] at e
    rw [e]
  · intro t
    simp only [List.map_map, List.mem_map, Function.comp_def]
    constructor
    · rintro ⟨g, hg, rfl⟩
      obtain ⟨t, ht, hs, hc, hpos⟩ := hgood g hg
      rw [hc] at hpos
      unfold countRows at hpos
      obtain ⟨f, hf⟩ := List.exists_mem_of_length_pos hpos
      rw [List.mem_filter] at hf
      refine ⟨f, hf.1, ?_⟩
      simp only [assessmentOf, ht, stringTarget]
      simpa using hf.2
    · rintro ⟨f, hf, rfl⟩
      have := hcov f hf
      rw [List.mem_map] at this
      obtain ⟨g, hg, hk⟩ := this
      exact ⟨g, hg, by simp [assessmentOf, hk, stringTarget]⟩
  · intro a ha
    rw [List.mem_map] at ha
    obtain ⟨g, hg, rfl⟩ := ha
    obtain ⟨t, ht, hs, hc, hpos⟩ := hgood g hg
    have hid : (assessmentOf db.quotient g).TeachingID = t := by
      simp [assessmentOf, ht, stringTarget]
    rw [hid]
    refine ⟨g.sum, hs, hc ▸ hpos, by simp [assessmentOf, hc], ?_⟩
    simp only [assessmentOf, meanRating, ← hs, ← hc]

theorem BulkStoreFeedBack_eq (ct : unicode.CaseTables) (db : DB) (r : rand.Source)
    (fs : List Feedback) :
    Service.BulkStoreFeedBack ct db r fs = bulkStoreFeedback ct db r fs := by
  unfold Service.BulkStoreFeedBack
  rcases bulkStoreFeedback ct db r fs with ⟨_ | e, db1, r1⟩ <;> rfl

theorem bulkStoreFeedback_eq (ct : unicode.CaseTables) (db : DB) (r : rand.Source)
    (fs : List Feedback) :
    bulkStoreFeedback ct db r fs
      = ((BulkInsert db "feedback_remarks" feedbackColumns (valuesFrom ct r fs) "").1,
         (BulkInsert db "feedback_remarks" feedbackColumns (valuesFrom ct r fs) "").2,
         ⟨r.stream, r.pos + 4 * fs.length⟩) := by
  simp only [bulkStoreFeedback, feedbackValues_eq]

theorem BulkInsert_exec (db : DB) (table : String) (columns : List String) (values : List Value)
    (conflictAction : String) (n : Nat)
    (hmod : values.length % columns.length = 0) (hdiv : values.length / columns.length = n)
    (hn : n ≠ 0) :
    (BulkInsert db table columns values conflictAction).2
        = (Exec db (.Insert table columns (rowsOf columns.length n values) conflictAction)).2
    ∧ ((BulkInsert db table columns values conflictAction).1 = none ↔
        ∃ k, (Exec db (.Insert table columns (rowsOf columns.length n values) conflictAction)).1 = .ok k) := by
  unfold BulkInsert
  simp only [hmod, hdiv, hn, ne_eq, not_true_eq_false, if_false]
  rcases Exec db (.Insert table columns (rowsOf columns.length n values) conflictAction) with ⟨_ | _, db1⟩ <;> simp

theorem Exec_insert_feedback (db : DB) (columns : List String) (values : List (List Value))
    (suffix : String) (k : Nat)
    (h : (Exec db (.Insert "feedback_remarks" columns values suffix)).1 = .ok k) :
    ∃ rows, buildRows setFeedbackColumn ⟨"", "", "", 0⟩ columns values = .ok rows
      ∧ (Exec db (.Insert "feedback_remarks" columns values suffix)).2
        = { db with
            execLog := db.execLog ++ [.Insert "feedback_remarks" columns values suffix],
            feedback_remarks := db.feedback_remarks ++ rows } := by
  unfold Exec at h ⊢
  cases hf : db.fault db.questions db.feedback_remarks (.Insert "feedback_remarks" columns values suffix) with
  | some e => simp [hf] at h
  | none =>
    simp only [hf] at h ⊢
    cases hb : buildRows setFeedbackColumn ⟨"", "", "", 0⟩ columns values with
    | error e => simp [hb] at h
    | ok rows => exact ⟨rows, rfl, by simp [hb]⟩

theorem BulkInsert_two (ct : unicode.CaseTables) (db : DB) (r : rand.Source) (f1 f2 : Feedback)
    (h : (Service.BulkStoreFeedBack ct db r [f1, f2]).1 = none) :
    (Service.BulkStoreFeedBack ct db r [f1, f2]).2.1.feedback_remarks
      = db.feedback_remarks ++
        [{ f1 with ID := (genID ct r).1 }, { f2 with ID := (genID ct (genID ct r).2).1 }]
    ∧ (Service.BulkStoreFeedBack ct db r [f1, f2]).2.1.quotient = db.quotient := by
  have hrows : rowsOf 4 2 (valuesFrom ct r [f1, f2])
      = [[.str (genID ct r).1, .str f1.TeachingID, .str f1.QuestionID, .dec f1.Rating],
         [.str (genID ct (genID ct r).2).1, .str f2.TeachingID, .str f2.QuestionID, .dec f2.Rating]] := by
    simp [rowsOf, valuesFrom, List.range_succ]
  have hbuild : buildRows setFeedbackColumn ⟨"", "", "", 0⟩ feedbackColumns (rowsOf 4 2 (valuesFrom ct r [f1, f2]))
      = .ok [{ f1 with ID := (genID ct r).1 }, { f2 with ID := (genID ct (genID ct r).2).1 }] := by
    rw [hrows]
    simp [buildRows, feedbackColumns, assignColumns, setFeedbackColumn]
  have hlen : (valuesFrom ct r [f1, f2]).length = 8 := by simp [valuesFrom]
  obtain ⟨h2, h1⟩ := BulkInsert_exec db "feedback_remarks" feedbackColumns (valuesFrom ct r [f1, f2]) "" 2
    (by rw [hlen]; rfl) (by rw [hlen]; rfl) (by decide)
  rw [BulkStoreFeedBack_eq, bulkStoreFeedback_eq] at h ⊢
  simp only at h ⊢
  obtain ⟨k, hk⟩ := h1.mp h
  obtain ⟨rows, hr, hdb⟩ := Exec_insert_feedback db _ _ _ k hk
  have h4 : feedbackColumns.length = 4 := rfl
  rw [h4] at hr hdb h2
  rw [hbuild] at hr
  simp only [Except.ok.injEq] at hr
  rw [h2, hdb, ← hr]
  exact ⟨rfl, rfl⟩

theorem GetAllAssessment_T1 (db : DB) (id1 id2 q1 q2 : String)
    (hrows : db.feedback_remarks = [⟨id1, "T1", q1, 4⟩, ⟨id2, "T1", q2, 2⟩])
    (hfault : db.fault db.questions db.feedback_remarks assessmentStatement = none) :
    Service.GetAllAssessment db = .ok [⟨"T1", db.quotient ⟨6, 0⟩ 2⟩] := by
  have hsql : sq.ToSql assessmentStatement = .ok assessmentStatement := by
    simp [sq.ToSql, assessmentStatement]
  have hsum : (4 : decimal.Decimal).Add 2 = ⟨6, 0⟩ := by decide
  simp only [assessmentStatement] at hsql hfault
  simp only [Service.GetAllAssessment, findAllAssessment, hsql, RunQuery, hfault, runSelect]
  simp [hrows, matchesEq, groupFeedback, feedbackColumn, accumulate, applyLimit, projectRows,
    projectRow, groupColumn, eachRow, scanAssessment, sql.Rows.Scan, sql.scanColumns,
    sql.assignAll, sql.convertAssign, stringTarget, decimalTarget, hsum]

theorem sampleQuotient_six (s : decimal.Decimal) (h : s.toRat = 6) :
    (sampleQuotient s 2).toRat = 3 := by
  have h10 : (10 : ℚ) ≠ 0 := by norm_num
  have heven : (2 : Int) ∣ s.value := by
    unfold decimal.Decimal.toRat at h
    rcases Int.le_total 0 s.exp with hpos | hneg
    · obtain ⟨k, hk⟩ := Int.eq_ofNat_of_zero_le hpos
      rw [hk, zpow_natCast] at h
      have h4 : s.value * 10 ^ k = 6 := by exact_mod_cast h
      cases k with
      | zero => simp at h4; rw [h4]; decide
      | succ n =>
        rw [pow_succ] at h4
        generalize s.value * 10 ^ n = w at h4
        have : s.value * (10 ^ n * 10) = 10 * (s.value * 10 ^ n) := by ring
        omega
    · obtain ⟨k, hk⟩ := Int.eq_ofNat_of_zero_le (Int.neg_nonneg_of_nonpos hneg)
      have he : s.exp = -(k : Int) := by omega
      rw [he, zpow_neg, zpow_natCast] at h
      have hk0 : ((10 : ℚ) ^ k) ≠ 0 := pow_ne_zero _ h10
      have h3 : ((s.value : Int) : ℚ) = ((6 * 10 ^ k : Int) : ℚ) := by
        push_cast
        field_simp at h
        linarith
      have h4 : s.value = 6 * 10 ^ k := by exact_mod_cast h3
      exact ⟨3 * 10 ^ k, by rw [h4]; ring⟩
  unfold sampleQuotient
  rw [if_pos (by exact_mod_cast heven)]
  unfold decimal.Decimal.toRat at h ⊢
  simp only
  rw [Int.cast_div (by exact_mod_cast heven) (by norm_num)]
  push_cast
  rw [div_mul_eq_mul_div, h]
  norm_num

/-- C6, as amended: when the storage engine answers the aggregation query,
`GetAllAssessment` returns a list with exactly one assessment per distinct
`TeachingID` of the stored feedback rows.  The rating of each assessment is the
decimal the engine returns for the quotient of the exact sum of the ratings of
the rows with that `TeachingID` by their number, and it is the arithmetic mean
exactly when that quotient is exact.  In particular, after a successful
ingestion of two rows for "T1" with ratings 4 and 2 into a store without
feedback rows, the engine dividing 6 by 2 exactly, it returns a single
assessment, for "T1", with rating 3. -/
theorem GetAllAssessment_quotient_rating :
    (∀ db : DB, db.fault db.questions db.feedback_remarks assessmentStatement = none →
      ∃ as, Service.GetAllAssessment db = .ok as
        ∧ (as.map (fun a => a.TeachingID)).Nodup
        ∧ (∀ t, t ∈ as.map (fun a => a.TeachingID) ↔ ∃ f ∈ db.feedback_remarks, f.TeachingID = t)
        ∧ ∀ a ∈ as, ∃ s : decimal.Decimal,
            s.toRat = sumRatings db.feedback_remarks a.TeachingID
            ∧ 0 < countRows db.feedback_remarks a.TeachingID
            ∧ a.Rating = db.quotient s (countRows db.feedback_remarks a.TeachingID)
            ∧ (a.Rating.toRat = meanRating db.feedback_remarks a.TeachingID ↔
                (db.quotient s (countRows db.feedback_remarks a.TeachingID)).toRat
                  = s.toRat / (countRows db.feedback_remarks a.TeachingID : ℚ)))
    ∧ (∀ (ct : unicode.CaseTables) (r : rand.Source) (db : DB) (id1 id2 : String),
        db.feedback_remarks = [] →
        (Service.BulkStoreFeedBack ct db r [⟨id1, "T1", "Q1", 4⟩, ⟨id2, "T1", "Q1", 2⟩]).1 = none →
        (Service.BulkStoreFeedBack ct db r [⟨id1, "T1", "Q1", 4⟩, ⟨id2, "T1", "Q1", 2⟩]).2.1.fault
            (Service.BulkStoreFeedBack ct db r [⟨id1, "T1", "Q1", 4⟩, ⟨id2, "T1", "Q1", 2⟩]).2.1.questions
            (Service.BulkStoreFeedBack ct db r [⟨id1, "T1", "Q1", 4⟩, ⟨id2, "T1", "Q1", 2⟩]).2.1.feedback_remarks
            assessmentStatement = none →
        (∀ s : decimal.Decimal, s.toRat = 6 → (db.quotient s 2).toRat = 3) →
        ∃ a, Service.GetAllAssessment
              (Service.BulkStoreFeedBack ct db r [⟨id1, "T1", "Q1", 4⟩, ⟨id2, "T1", "Q1", 2⟩]).2.1
            = .ok [a]
          ∧ a.TeachingID = "T1" ∧ a.Rating.toRat = 3) := by
  refine ⟨GetAllAssessment_general, ?_⟩
  intro ct r db id1 id2 hempty hok hfault hexact
  obtain ⟨hrows, hquot⟩ := BulkInsert_two ct db r ⟨id1, "T1", "Q1", 4⟩ ⟨id2, "T1", "Q1", 2⟩ hok
  rw [hempty, List.nil_append] at hrows
  refine ⟨_, GetAllAssessment_T1 _ _ _ "Q1" "Q1" hrows hfault, rfl, ?_⟩
  rw [hquot]
  exact hexact ⟨6, 0⟩ (by simp [decimal.Decimal.toRat])

/-- Witness for C6 on the sample store (teachings "T1" with ratings 4 and 2,
"T2" with rating 5) and on the ingestion of the two "T1" rows into the empty
store, with the sample division. -/
theorem GetAllAssessment_quotient_rating_witness :
    (∃ as, Service.GetAllAssessment sampleDB = .ok as
        ∧ (as.map (fun a => a.TeachingID)).Nodup
        ∧ (∀ t, t ∈ as.map (fun a => a.TeachingID) ↔ ∃ f ∈ sampleDB.feedback_remarks, f.TeachingID = t)
        ∧ ∀ a ∈ as, ∃ s : decimal.Decimal,
            s.toRat = sumRatings sampleDB.feedback_remarks a.TeachingID
            ∧ 0 < countRows sampleDB.feedback_remarks a.TeachingID
            ∧ a.Rating = sampleDB.quotient s (countRows sampleDB.feedback_remarks a.TeachingID)
            ∧ (a.Rating.toRat = meanRating sampleDB.feedback_remarks a.TeachingID ↔
                (sampleDB.quotient s (countRows sampleDB.feedback_remarks a.TeachingID)).toRat
                  = s.toRat / (countRows sampleDB.feedback_remarks a.TeachingID : ℚ)))
    ∧ ∃ a, Service.GetAllAssessment
          (Service.BulkStoreFeedBack sampleTables emptyDB sampleSource
            [⟨"", "T1", "Q1", 4⟩, ⟨"", "T1", "Q1", 2⟩]).2.1
        = .ok [a]
      ∧ a.TeachingID = "T1" ∧ a.Rating.toRat = 3 :=
  ⟨GetAllAssessment_quotient_rating.1 sampleDB rfl,
   GetAllAssessment_quotient_rating.2 sampleTables sampleSource emptyDB "" "" rfl (by decide) rfl
     sampleQuotient_six⟩

/-- Counterexample to C6 as stated: on the store with three rows for "T1" rated
1, 1 and 2 the engine answers the query, the arithmetic mean is 4/3, and the
assessment returned for "T1" has the rating 1.3333333333333333, which is not
the mean; and no decimal at all stands for 4/3. -/
theorem GetAllAssessment_mean_rating_inexact :
    thirdsDB.fault thirdsDB.questions thirdsDB.feedback_remarks assessmentStatement = none
    ∧ meanRating thirdsDB.feedback_remarks "T1" = 4 / 3
    ∧ Service.GetAllAssessment thirdsDB = .ok [⟨"T1", ⟨13333333333333333, -16⟩⟩]
    ∧ (⟨13333333333333333, -16⟩ : decimal.Decimal).toRat ≠ meanRating thirdsDB.feedback_remarks "T1"
    ∧ ∀ d : decimal.Decimal, d.toRat ≠ meanRating thirdsDB.feedback_remarks "T1" := by
  have hmean : meanRating thirdsDB.feedback_remarks "T1" = 4 / 3 := by
    simp [meanRating, sumRatings, countRows, thirdsDB, decimal.Decimal.toRat, OfNat.ofNat]
    norm_num
  refine ⟨rfl, hmean, rfl, ?_, ?_⟩
  · rw [hmean]; exact Decimal_ne_four_thirds _
  · intro d; rw [hmean]; exact Decimal_ne_four_thirds d

/-! ## The only-enabled flag -/

theorem char_of_toNat (x : Char) (n : Nat) (h : x.val.toNat = n) : x = Char.ofNat n := by
  rw [← h]
  exact (Char.ofNat_toNat x).symm

theorem asciiLower_letter (x : Char) :
    ∀ y ∈ "enable".data, unicode.asciiLower x = y → x = y ∨ x = unicode.asciiUpper y := by
  intro y hy h
  unfold unicode.asciiLower at h
  split at h
  · rename_i hr
    right
    generalize hn : x.val.toNat = n at hr h
    have hx := char_of_toNat x n hn
    subst hx
    obtain ⟨h1, h2⟩ := hr
    clear hn
    revert y
    interval_cases n <;> decide
  · left; exact h

theorem toLower_letter (ct : unicode.CaseTables) (hct : lowerAvoidsEnable ct) (x : Char) :
    ∀ y ∈ "enable".data, unicode.ToLower ct x = y → x = y ∨ x = unicode.asciiUpper y := by
  intro y hy h
  unfold unicode.ToLower at h
  cases ha : unicode.isASCII x with
  | true =>
    rw [ha] at h
    exact asciiLower_letter x y hy h
  | false =>
    rw [ha] at h
    simp only [Bool.false_eq_true, if_false] at h
    exact absurd (h ▸ hy) (hct x ha)

theorem forall₂_of_map {α β : Type} (g : α → β) (R : α → β → Prop) (l : List α) (m : List β)
    (h : l.map g = m) (hR : ∀ x, ∀ y ∈ m, g x = y → R x y) : List.Forall₂ R l m := by
  induction l generalizing m with
  | nil => subst h; exact List.Forall₂.nil
  | cons x l ih =>
    subst h
    exact List.Forall₂.cons (hR x _ (List.mem_cons_self _ _) rfl)
      (ih _ rfl (fun x y hy e => hR x y (List.mem_cons_of_mem _ hy) e))

theorem map_of_forall₂ {α β : Type} (g : α → β) (R : α → β → Prop) (l : List α) (m : List β)
    (h : List.Forall₂ R l m) (hR : ∀ x, ∀ y ∈ m, R x y → g x = y) : l.map g = m := by
  induction h with
  | nil => rfl
  | cons hxy _ ih =>
    rw [List.map_cons, hR _ _ (List.mem_cons_self _ _) hxy,
      ih (fun x y hy e => hR x y (List.mem_cons_of_mem _ hy) e)]

theorem letter_facts : ∀ y ∈ "enable".data,
    (unicode.asciiLower y = y ∧ unicode.isASCII y = true ∧ html.escapeRune y = [y])
    ∧ (unicode.asciiLower (unicode.asciiUpper y) = y ∧ unicode.isASCII (unicode.asciiUpper y) = true
        ∧ html.escapeRune (unicode.asciiUpper y) = [unicode.asciiUpper y]) := by
  decide

theorem escapeRune_cases (c : Char) :
    html.escapeRune c = [c] ∨ ∃ rest, html.escapeRune c = Char.ofNat 38 :: rest := by
  unfold html.escapeRune
  split
  · right; exact ⟨_, rfl⟩
  · split
    · right; exact ⟨_, rfl⟩
    · split
      · right; exact ⟨_, rfl⟩
      · split
        · right; exact ⟨_, rfl⟩
        · split
          · right; exact ⟨_, rfl⟩
          · left; rfl

theorem flatMap_escape_of_no_amp (s : List Char)
    (h : ∀ x ∈ s.flatMap html.escapeRune, x ≠ Char.ofNat 38) : s.flatMap html.escapeRune = s := by
  induction s with
  | nil => rfl
  | cons c s ih =>
    rw [List.flatMap_cons] at h ⊢
    rcases escapeRune_cases c with hc | ⟨rest, hc⟩
    · rw [hc] at h ⊢
      rw [ih (fun x hx => h x (List.mem_append_right _ hx))]
      rfl
    · rw [hc] at h
      exact absurd rfl (h (Char.ofNat 38) (by simp))

theorem flatMap_escape_of_singletons (s : List Char) (h : ∀ x ∈ s, html.escapeRune x = [x]) :
    s.flatMap html.escapeRune = s := by
  induction s with
  | nil => rfl
  | cons c s ih =>
    rw [List.flatMap_cons, h c (List.mem_cons_self _ _),
      ih (fun x hx => h x (List.mem_cons_of_mem _ hx))]
    rfl

theorem variant_facts (x : Char) (y : Char) (hy : y ∈ "enable".data)
    (hxy : x = y ∨ x = unicode.asciiUpper y) :
    unicode.asciiLower x = y ∧ unicode.isASCII x = true ∧ html.escapeRune x = [x] := by
  rcases hxy with rfl | rfl
  · exact (letter_facts _ hy).1
  · exact (letter_facts y hy).2

theorem forall₂_left_mem {α β : Type} (R : α → β → Prop) (l : List α) (m : List β)
    (h : List.Forall₂ R l m) : ∀ x ∈ l, ∃ y ∈ m, R x y := by
  induction h with
  | nil => intro x hx; cases hx
  | cons hxy _ ih =>
    intro x hx
    rcases List.mem_cons.mp hx with rfl | hx
    · exact ⟨_, List.mem_cons_self _ _, hxy⟩
    · obtain ⟨y, hy, hr⟩ := ih x hx
      exact ⟨y, List.mem_cons_of_mem _ hy, hr⟩

theorem toLower_data (ct : unicode.CaseTables) (s : String) :
    (strings.ToLower ct s).data = s.data.map unicode.asciiLower
    ∨ (strings.ToLower ct s).data = s.data.map (unicode.ToLower ct) := by
  unfold strings.ToLower
  split
  · left; rfl
  · right; rfl

theorem toLower_escape_iff (ct : unicode.CaseTables) (hct : lowerAvoidsEnable ct) (t : String) :
    strings.ToLower ct (html.EscapeString t) = "enable" ↔ enableAnyCase t := by
  constructor
  · intro h
    have hd : (strings.ToLower ct (html.EscapeString t)).data = "enable".data := by rw [h]
    have hesc : enableAnyCase (html.EscapeString t) := by
      rcases toLower_data ct (html.EscapeString t) with h1 | h1
      · rw [h1] at hd
        exact forall₂_of_map _ _ _ _ hd (fun x y hy e => asciiLower_letter x y hy e)
      · rw [h1] at hd
        exact forall₂_of_map _ _ _ _ hd (fun x y hy e => toLower_letter ct hct x y hy e)
    have hsame : (html.EscapeString t).data = t.data := by
      apply flatMap_escape_of_no_amp
      intro x hx e
      obtain ⟨y, hy, hr⟩ := forall₂_left_mem _ _ _ hesc x hx
      have hf := (variant_facts x y hy hr).2.2
      rw [e] at hf
      revert hf
      decide
    unfold enableAnyCase at hesc ⊢
    rw [← hsame]
    exact hesc
  · intro h
    have hfacts : ∀ x ∈ t.data, unicode.isASCII x = true ∧ html.escapeRune x = [x] := by
      intro x hx
      obtain ⟨y, hy, hr⟩ := forall₂_left_mem _ _ _ h x hx
      exact (variant_facts x y hy hr).2
    have hsame : (html.EscapeString t).data = t.data :=
      flatMap_escape_of_singletons _ (fun x hx => (hfacts x hx).2)
    have hall : (html.EscapeString t).data.all unicode.isASCII = true := by
      rw [hsame, List.all_eq_true]
      exact fun x hx => (hfacts x hx).1
    have hmap : t.data.map unicode.asciiLower = "enable".data :=
      map_of_forall₂ _ _ _ _ h (fun x y hy hr => (variant_facts x y hy hr).1)
    unfold strings.ToLower
    rw [if_pos hall, hsame, hmap]

/-- C8: provided the case table lowers no rune above `MaxASCII` to a letter of
"enable", the `GetAllQuestion` handler answers 200 with the enabled-only list
when the query value, with surrounding white space trimmed, is "enable" in any
letter casing, and answers 200 with the full list for every other query value
(a failure of the service is returned as it is in both cases). -/
theorem GetAllQuestion_enable_flag (ct : unicode.CaseTables) (hct : lowerAvoidsEnable ct)
    (db : DB) (q : String) :
    (enableAnyCase (strings.TrimSpace q) →
      handler.GetAllQuestion ct db q
        = (Service.GetAllQuestion db).map (fun questions => ⟨200, Questions.Enable questions⟩))
    ∧ (¬ enableAnyCase (strings.TrimSpace q) →
      handler.GetAllQuestion ct db q
        = (Service.GetAllQuestion db).map (fun questions => ⟨200, questions⟩)) := by
  constructor
  · intro h
    have := (toLower_escape_iff ct hct (strings.TrimSpace q)).mpr h
    unfold handler.GetAllQuestion
    cases Service.GetAllQuestion db with
    | error e => rfl
    | ok qs => simp [this, Except.map]
  · intro h
    have : ¬ strings.ToLower ct (html.EscapeString (strings.TrimSpace q)) = "enable" :=
      fun e => h ((toLower_escape_iff ct hct (strings.TrimSpace q)).mp e)
    unfold handler.GetAllQuestion
    cases Service.GetAllQuestion db with
    | error e => rfl
    | ok qs => simp [this, Except.map]

theorem sampleTables_avoid : lowerAvoidsEnable sampleTables := by
  intro c hc hmem
  have hascii : ∀ y ∈ "enable".data, unicode.isASCII y = true := by decide
  simp only [sampleTables] at hmem
  split at hmem
  · revert hmem; decide
  · split at hmem
    · revert hmem; decide
    · rw [hascii c hmem] at hc
      cases hc

theorem enableAnyCase_sample : enableAnyCase (strings.TrimSpace " EnAbLe\n") := by
  have h : (strings.TrimSpace " EnAbLe\n").data = ['E', 'n', 'A', 'b', 'L', 'e'] := by decide
  unfold enableAnyCase
  rw [h]
  refine .cons (by decide) (.cons (by decide) (.cons (by decide) (.cons (by decide)
    (.cons (by decide) (.cons (by decide) .nil)))))

/-- Witness for C8: with the sample case tables the query value " EnAbLe" followed
by a line feed selects the enabled-only list of the sample store. -/
theorem GetAllQuestion_enable_flag_witness :
    lowerAvoidsEnable sampleTables
    ∧ enableAnyCase (strings.TrimSpace " EnAbLe\n")
    ∧ handler.GetAllQuestion sampleTables sampleDB " EnAbLe\n"
        = (Service.GetAllQuestion sampleDB).map (fun questions => ⟨200, Questions.Enable questions⟩) :=
  ⟨sampleTables_avoid, enableAnyCase_sample,
   (GetAllQuestion_enable_flag sampleTables sampleTables_avoid sampleDB " EnAbLe\n").1
     enableAnyCase_sample⟩

/-! ## Empty and unvalidated batches -/

/-- C4: for the empty batch the loop of `bulkStoreFeedback` collects no value
and the bulk insert builds no statement: the handle comes back unchanged (no
statement recorded, no row inserted) and the result is the bulk insert's answer
to an empty batch, either no error (a no-op, on which the handler answers 201)
or its rejection. -/
theorem bulkStoreFeedback_empty (ct : unicode.CaseTables) (db : DB) (r : rand.Source) :
    feedbackValues ct r [] = ([], r)
    ∧ bulkStoreFeedback ct db r [] = (db.onEmptyBatch, db, r)
    ∧ Service.BulkStoreFeedBack ct db r [] = (db.onEmptyBatch, db, r)
    ∧ (Service.BulkStoreFeedBack ct db r []).2.1.execLog = db.execLog
    ∧ (Service.BulkStoreFeedBack ct db r []).2.1.feedback_remarks = db.feedback_remarks
    ∧ (db.onEmptyBatch = none → (handler.StoreFeedback ct db r (.ok [])).1 = .ok ⟨201, ()⟩) := by
  have h1 : bulkStoreFeedback ct db r [] = (db.onEmptyBatch, db, r) := by
    simp [bulkStoreFeedback, feedbackValues, BulkInsert, feedbackColumns]
  have h2 : Service.BulkStoreFeedBack ct db r [] = (db.onEmptyBatch, db, r) := by
    rw [BulkStoreFeedBack_eq, h1]
  refine ⟨rfl, h1, h2, by rw [h2], by rw [h2], ?_⟩
  intro h
  simp only [handler.StoreFeedback, h2, h]

/-- C5, evaluated: a batch whose only element has an empty `TeachingID` is not
rejected by the `StoreFeedback` handler.  On the empty store the handler
answers 201, the bulk insert statement is executed with the empty teaching id
and the row is stored. -/
theorem StoreFeedback_empty_teachingId :
    (handler.StoreFeedback sampleTables emptyDB sampleSource (.ok [⟨"", "", "Q1", 4⟩])).1
        = .ok ⟨201, ()⟩
    ∧ (handler.StoreFeedback sampleTables emptyDB sampleSource (.ok [⟨"", "", "Q1", 4⟩])).2.1.feedback_remarks
        = [⟨"A1B2C3D4", "", "Q1", 4⟩]
    ∧ (handler.StoreFeedback sampleTables emptyDB sampleSource (.ok [⟨"", "", "Q1", 4⟩])).2.1.execLog
        = [.Insert "feedback_remarks" ["id", "teaching_id", "question_id", "rating"]
            [[.str "A1B2C3D4", .str "", .str "Q1", .dec 4]] ""] := by
  refine ⟨rfl, ?_, ?_⟩ <;> decide
